import Mathlib

/-!
# Verification of the vector / quaternion / matrix library (linalg.h) and its callers (main.c)

The C code computes on `float`.  The properties settled here are stated in exact
arithmetic: every definition is generic in an ordered field `F` (so it runs on `ℚ`),
and the libm functions the code calls (`sqrtf`, `cosf`, `sinf`, `tanf`) are explicit
function arguments.  The theorems instantiate them at `ℝ` with `Real.sqrt`, `Real.cos`,
`Real.sin`, `Real.tan`.
-/

namespace Linalg

/-! ## Data model (linalg.h, lines 7-55) -/

/-- The struct `Vec3` of linalg.h: fields x, y, z. -/
@[ext] structure Vec3 (F : Type) where
  x : F
  y : F
  z : F
  deriving DecidableEq, Repr

/-- The struct `Quat` of linalg.h: fields w, x, y, z (in that order). -/
@[ext] structure Quat (F : Type) where
  w : F
  x : F
  y : F
  z : F
  deriving DecidableEq, Repr

/-- The struct `Mat4` of linalg.h: sixteen fields, row-major (the first letter is the row). -/
@[ext] structure Mat4 (F : Type) where
  xx : F
  xy : F
  xz : F
  xw : F
  yx : F
  yy : F
  yz : F
  yw : F
  zx : F
  zy : F
  zz : F
  zw : F
  wx : F
  wy : F
  wz : F
  ww : F
  deriving DecidableEq, Repr

section Defs

variable {F : Type} [LinearOrderedField F]

/-- Constructor `vec3(x, y, z)`. -/
def vec3 (x y z : F) : Vec3 F := ⟨x, y, z⟩

/-- Constructor `quat(w, x, y, z)`. -/
def quat (w x y z : F) : Quat F := ⟨w, x, y, z⟩

/-- Constructor `mat4(...)`, arguments in row-major order. -/
def mat4 (xx xy xz xw yx yy yz yw zx zy zz zw wx wy wz ww : F) : Mat4 F :=
  ⟨xx, xy, xz, xw, yx, yy, yz, yw, zx, zy, zz, zw, wx, wy, wz, ww⟩

/-- The constant `FLT_EPSILON` of float.h, 2^-23. -/
def FLT_EPSILON : F := 1 / 2 ^ 23

/-- The libm function `fabsf`. -/
def fabsf (x : F) : F := |x|

/-! ## Vector operations (linalg.h, lines 57-96) -/

/-- Source: `vec_dot`. -/
def vec_dot (v1 v2 : Vec3 F) : F :=
  v1.x * v2.x + v1.y * v2.y + v1.z * v2.z

/-- Source: `vec_scale`. -/
def vec_scale (v : Vec3 F) (s : F) : Vec3 F :=
  vec3 (v.x * s) (v.y * s) (v.z * s)

/-- Source: `vec_add`. -/
def vec_add (a b : Vec3 F) : Vec3 F :=
  vec3 (a.x + b.x) (a.y + b.y) (a.z + b.z)

/-- Source: `vec_len_sq`. -/
def vec_len_sq (v : Vec3 F) : F :=
  v.x * v.x + v.y * v.y + v.z * v.z

/-- Source: `vec_len`; `sqrtf` is the libm square root. -/
def vec_len (sqrtf : F → F) (v : Vec3 F) : F :=
  sqrtf (vec_len_sq v)

/-- Source: `vec_proj` (its parameters are named `to` and `from` there). -/
def vec_proj (to_ from_ : Vec3 F) : Vec3 F :=
  vec_scale to_ (vec_dot to_ from_ / vec_len_sq to_)

/-- Source: `vec_norm`. -/
def vec_norm (sqrtf : F → F) (v : Vec3 F) : Vec3 F :=
  vec_scale v (1 / vec_len sqrtf v)

/-- Source: `vec_neg`. -/
def vec_neg (v : Vec3 F) : Vec3 F :=
  vec_scale v (-1)

/-- Source: `vec_to_circular`. -/
def vec_to_circular (sqrtf : F → F) (v : Vec3 F) : Vec3 F :=
  let sum := fabsf v.x + fabsf v.y + fabsf v.z
  let len := vec_len sqrtf v
  if len < FLT_EPSILON then v
  else vec_scale v (len / sum)

/-! ## Quaternion operations (linalg.h, lines 98-132) -/

/-- Source: `quat_neg` (the conjugate: the vector part is negated). -/
def quat_neg (q : Quat F) : Quat F :=
  quat q.w (-q.x) (-q.y) (-q.z)

/-- Source: `quat_from_rot`; `sqrtf`, `cosf`, `sinf` are the libm functions. -/
def quat_from_rot (sqrtf cosf sinf : F → F) (rot : Vec3 F) : Quat F :=
  let a := vec_len sqrtf rot
  let c := cosf (a / 2)
  let s := sinf (a / 2)
  if a < FLT_EPSILON then quat 1 0 0 0
  else quat c (s * rot.x / a) (s * rot.y / a) (s * rot.z / a)

/-- Source: `quat_mul` (Hamilton product). -/
def quat_mul (a b : Quat F) : Quat F :=
  quat
    (a.w * b.w - a.x * b.x - a.y * b.y - a.z * b.z)
    (a.w * b.x + a.x * b.w + a.y * b.z - a.z * b.y)
    (a.w * b.y - a.x * b.z + a.y * b.w + a.z * b.x)
    (a.w * b.z + a.x * b.y - a.y * b.x + a.z * b.w)

/-- Source: `quat_to_mat`. -/
def quat_to_mat (q : Quat F) : Mat4 F :=
  mat4
    (1 - 2 * (q.y * q.y + q.z * q.z)) (2 * (q.x * q.y - q.w * q.z)) (2 * (q.w * q.y + q.x * q.z)) 0
    (2 * (q.x * q.y + q.w * q.z)) (1 - 2 * (q.x * q.x + q.z * q.z)) (2 * (q.y * q.z - q.w * q.x)) 0
    (2 * (q.x * q.z - q.w * q.y)) (2 * (q.w * q.x + q.y * q.z)) (1 - 2 * (q.x * q.x + q.y * q.y)) 0
    0 0 0 1

/-! ## Matrix operations (linalg.h, lines 134-198) -/

/-- Source: `mat_identity`. -/
def mat_identity : Mat4 F :=
  mat4
    1 0 0 0
    0 1 0 0
    0 0 1 0
    0 0 0 1

/-- Source: `mat_from_pos`. -/
def mat_from_pos (pos : Vec3 F) : Mat4 F :=
  mat4
    1 0 0 pos.x
    0 1 0 pos.y
    0 0 1 pos.z
    0 0 0 1

/-- Source: `mat_from_scale`. -/
def mat_from_scale (scale : Vec3 F) : Mat4 F :=
  mat4
    scale.x 0 0 0
    0 scale.y 0 0
    0 0 scale.z 0
    0 0 0 1

/-- Source: `mat_from_persp`; `tanf` is the libm tangent. -/
def mat_from_persp (tanf : F → F) (fov ratio n f : F) : Mat4 F :=
  let a := 1 / tanf (fov / 2)
  mat4
    (ratio * a) 0 0 0
    0 a 0 0
    0 0 (-(f + n) / (f - n)) (2 * f * n / (n - f))
    0 0 (-1) 0

/-- Source: `mat_vec_mul`. -/
def mat_vec_mul (l : Mat4 F) (r : Vec3 F) : Vec3 F :=
  vec3
    (l.xx * r.x + l.xy * r.y + l.xz * r.z)
    (l.yx * r.x + l.yy * r.y + l.yz * r.z)
    (l.zx * r.x + l.zy * r.y + l.zz * r.z)

/-- Source: `mat_mul`. -/
def mat_mul (l r : Mat4 F) : Mat4 F :=
  mat4
    (l.xx * r.xx + l.xy * r.yx + l.xz * r.zx + l.xw * r.wx)
    (l.xx * r.xy + l.xy * r.yy + l.xz * r.zy + l.xw * r.wy)
    (l.xx * r.xz + l.xy * r.yz + l.xz * r.zz + l.xw * r.wz)
    (l.xx * r.xw + l.xy * r.yw + l.xz * r.zw + l.xw * r.ww)
    (l.yx * r.xx + l.yy * r.yx + l.yz * r.zx + l.yw * r.wx)
    (l.yx * r.xy + l.yy * r.yy + l.yz * r.zy + l.yw * r.wy)
    (l.yx * r.xz + l.yy * r.yz + l.yz * r.zz + l.yw * r.wz)
    (l.yx * r.xw + l.yy * r.yw + l.yz * r.zw + l.yw * r.ww)
    (l.zx * r.xx + l.zy * r.yx + l.zz * r.zx + l.zw * r.wx)
    (l.zx * r.xy + l.zy * r.yy + l.zz * r.zy + l.zw * r.wy)
    (l.zx * r.xz + l.zy * r.yz + l.zz * r.zz + l.zw * r.wz)
    (l.zx * r.xw + l.zy * r.yw + l.zz * r.zw + l.zw * r.ww)
    (l.wx * r.xx + l.wy * r.yx + l.wz * r.zx + l.ww * r.wx)
    (l.wx * r.xy + l.wy * r.yy + l.wz * r.zy + l.ww * r.wy)
    (l.wx * r.xz + l.wy * r.yz + l.wz * r.zz + l.ww * r.wz)
    (l.wx * r.xw + l.wy * r.yw + l.wz * r.zw + l.ww * r.ww)

/-! ## Camera state and view matrix (main.c) -/

/-- The macro `PI` of main.c, line 9. -/
def PI : F := 314159265358979 / 100000000000000

/-- The value `(float)PI`: the macro `PI` converted to `float` (24-bit significand, round to
nearest), 13176795 * 2^-22.  It is what a `float` parameter receives when `PI` is passed. -/
def PI_float : F := 13176795 / 4194304

/-- The struct `Transform` of main.c: the free-fly camera is one. -/
@[ext] structure Transform (F : Type) where
  pos : Vec3 F
  rot : Quat F
  scale : Vec3 F
  deriving DecidableEq, Repr

/-- The struct `Camera` of main.c: the walking camera. -/
@[ext] structure Camera (F : Type) where
  pos : Vec3 F
  pitch : F
  yaw : F
  deriving DecidableEq, Repr

/-- Source: `main`, lines 442-445 and 476-478: the projection matrix for a window of
`w` by `h` pixels (`ratio_hw` is height over width). -/
def window_proj (tanf : F → F) (w h : F) : Mat4 F :=
  let ratio_hw := h / w
  let clip_near : F := 1 / 100
  let clip_far : F := 300
  let fov : F := 60
  mat_from_persp tanf (fov * PI / 180) ratio_hw clip_near clip_far

/-- Source: `main`, lines 654-668: the view matrix of the frame, from the mode flag `flying`
and the two cameras. -/
def view_matrix (sqrtf cosf sinf : F → F) (flying : Bool)
    (fly_camera : Transform F) (camera : Camera F) : Mat4 F :=
  let view_pos :=
    if flying then mat_from_pos (vec_neg fly_camera.pos)
    else mat_from_pos (vec_neg camera.pos)
  let view_rot :=
    if flying then quat_to_mat (quat_neg fly_camera.rot)
    else mat_mul
      (quat_to_mat (quat_from_rot sqrtf cosf sinf (vec3 (-camera.pitch) 0 0)))
      (quat_to_mat (quat_from_rot sqrtf cosf sinf (vec3 0 0 (-camera.yaw))))
  mat_mul view_rot view_pos

/-! ## Camera updates (main.c) -/

/-- Source: `clamp`, main.c lines 13-20. -/
def clamp (x low high : F) : F :=
  if x < low then low
  else if x > high then high
  else x

/-- Source: `default_transform`, main.c lines 131-137. -/
def default_transform : Transform F :=
  { pos := vec3 0 0 0, rot := quat 1 0 0 0, scale := vec3 1 1 1 }

/-- Source: `translate_local`, main.c lines 139-141; the updated `*t` is returned. -/
def translate_local (t : Transform F) (v : Vec3 F) : Transform F :=
  { t with pos := vec_add t.pos (mat_vec_mul (quat_to_mat t.rot) v) }

/-- Source: `translate_local_camera`, main.c lines 143-149; the updated `*cam` is returned. -/
def translate_local_camera (cosf sinf : F → F) (cam : Camera F) (v : Vec3 F) : Camera F :=
  let c := cosf cam.yaw
  let s := sinf cam.yaw
  let x := cam.pos.x + (v.x * c - v.y * s)
  let y := cam.pos.y + (v.y * c + v.x * s)
  let z := cam.pos.z + v.z
  { cam with pos := vec3 x y z }

/-- The array `inputs` of main.c (lines 22-28), one flag per enumerator. -/
structure Inputs where
  INPUT_FORWARD : Bool
  INPUT_BACKWARD : Bool
  INPUT_LEFT : Bool
  INPUT_RIGHT : Bool
  INPUT_X : Bool
  INPUT_Y : Bool
  INPUT_Z : Bool
  INPUT_SHIFT : Bool
  deriving DecidableEq, Repr

/-- The state the frame loop of `main` carries from one iteration to the next: the mode flag,
the key flags and the two cameras. -/
structure World (F : Type) where
  flying : Bool
  inputs : Inputs
  fly_camera : Transform F
  camera : Camera F

/-- The keys `main` reacts to (SDLK_a, SDLK_s, SDLK_w, SDLK_r, either shift, SDLK_x, SDLK_y,
SDLK_z, SDLK_SPACE); `other` is any key that changes none of the state modelled here. -/
inductive Key where
  | a | s | w | r | shift | x | y | z | space | other
  deriving DecidableEq, Repr

/-- The SDL events `main` handles (lines 466-586): pointer motion with its relative deltas,
key press and key release. -/
inductive Event where
  | mouse_motion (xrel yrel : Int)
  | key_down (k : Key)
  | key_up (k : Key)
  deriving DecidableEq, Repr

/-- Source: `main`, lines 450-459: the state before the first frame (no key held). -/
def initial_world (sqrtf cosf sinf : F → F) : World F :=
  { flying := false
    inputs := ⟨false, false, false, false, false, false, false, false⟩
    fly_camera :=
      { pos := vec3 0 0 (16 / 10)
        rot := quat_from_rot sqrtf cosf sinf (vec3 (PI * (2 / 10)) 0 0)
        scale := vec3 1 1 1 }
    camera := { pos := vec3 7 5 (17 / 10), pitch := PI / 2, yaw := PI * (65 / 100) } }

/-- Source: `main`, lines 496-551: a key press (`v = true`) or release (`v = false`) stores `v`
in the flag of that key. -/
def set_input (i : Inputs) (k : Key) (v : Bool) : Inputs :=
  match k with
  | Key.a => { i with INPUT_LEFT := v }
  | Key.s => { i with INPUT_RIGHT := v }
  | Key.w => { i with INPUT_FORWARD := v }
  | Key.r => { i with INPUT_BACKWARD := v }
  | Key.shift => { i with INPUT_SHIFT := v }
  | Key.x => { i with INPUT_X := v }
  | Key.y => { i with INPUT_Y := v }
  | Key.z => { i with INPUT_Z := v }
  | Key.space => i
  | Key.other => i

/-- Source: `main`, lines 482-495: the SDL_MOUSEMOTION case.  The parameters of `clamp` are
`float`, so the bound passed as `PI` arrives as `(float)PI`. -/
def on_mouse_motion (sqrtf cosf sinf : F → F) (w : World F) (xrel yrel : Int) : World F :=
  if w.flying then
    let rot :=
      quat_mul w.fly_camera.rot
        (quat_from_rot sqrtf cosf sinf
          (vec3 ((yrel : F) * (-3 / 1000)) ((xrel : F) * (-3 / 1000)) 0))
    { w with fly_camera := { w.fly_camera with rot := rot } }
  else
    let pitch := w.camera.pitch + (yrel : F) * (-3 / 1000)
    let yaw := w.camera.yaw + (xrel : F) * (-3 / 1000)
    { w with camera := { w.camera with pitch := clamp pitch 0 PI_float, yaw := yaw } }

/-- Source: `main`, lines 466-586: the event switch. -/
def handle_event (sqrtf cosf sinf : F → F) (w : World F) (e : Event) : World F :=
  match e with
  | Event.mouse_motion xrel yrel => on_mouse_motion sqrtf cosf sinf w xrel yrel
  | Event.key_down k => { w with inputs := set_input w.inputs k true }
  | Event.key_up Key.space => { w with flying := !w.flying }
  | Event.key_up k => { w with inputs := set_input w.inputs k false }

/-- Source: `main`, lines 589-630: the movement of the active camera in one frame. -/
def move_cameras (sqrtf cosf sinf : F → F) (delta_time : F) (w : World F) : World F :=
  let fly_speed : F := 10
  let walk_speed : F := 4
  let direction : Vec3 F := vec3 0 0 0
  if w.flying then
    let rot := w.fly_camera.rot
    let rot :=
      if w.inputs.INPUT_LEFT then
        quat_mul rot (quat_from_rot sqrtf cosf sinf (vec3 0 0 (3 / 100)))
      else rot
    let rot :=
      if w.inputs.INPUT_RIGHT then
        quat_mul rot (quat_from_rot sqrtf cosf sinf (vec3 0 0 (-(3 / 100))))
      else rot
    let direction :=
      if w.inputs.INPUT_FORWARD then vec_add direction (vec3 0 0 (-fly_speed * delta_time))
      else direction
    let direction :=
      if w.inputs.INPUT_BACKWARD then vec_add direction (vec3 0 0 (fly_speed * delta_time))
      else direction
    let fly_camera : Transform F := { w.fly_camera with rot := rot }
    { w with fly_camera := translate_local fly_camera (vec_to_circular sqrtf direction) }
  else
    let direction :=
      if w.inputs.INPUT_LEFT then vec_add direction (vec3 (-walk_speed * delta_time) 0 0)
      else direction
    let direction :=
      if w.inputs.INPUT_RIGHT then vec_add direction (vec3 (walk_speed * delta_time) 0 0)
      else direction
    let direction :=
      if w.inputs.INPUT_FORWARD then vec_add direction (vec3 0 (walk_speed * delta_time) 0)
      else direction
    let direction :=
      if w.inputs.INPUT_BACKWARD then vec_add direction (vec3 0 (-walk_speed * delta_time) 0)
      else direction
    { w with camera := translate_local_camera cosf sinf w.camera (vec_to_circular sqrtf direction) }

/-- Source: `main`, lines 632-652: the per-axis nudges; they are written to `camera.pos`. -/
def nudge_camera (inputs : Inputs) (delta_time : F) (camera : Camera F) : Camera F :=
  let x :=
    if inputs.INPUT_X then
      (if inputs.INPUT_SHIFT then camera.pos.x - delta_time else camera.pos.x + delta_time)
    else camera.pos.x
  let y :=
    if inputs.INPUT_Y then
      (if inputs.INPUT_SHIFT then camera.pos.y - delta_time else camera.pos.y + delta_time)
    else camera.pos.y
  let z :=
    if inputs.INPUT_Z then
      (if inputs.INPUT_SHIFT then camera.pos.z - delta_time else camera.pos.z + delta_time)
    else camera.pos.z
  { camera with pos := vec3 x y z }

/-- Source: `main`, lines 589-652: the state update of one frame, for the elapsed time
`delta_time` measured at the end of the previous frame. -/
def frame_update (sqrtf cosf sinf : F → F) (delta_time : F) (w : World F) : World F :=
  let w1 := move_cameras sqrtf cosf sinf delta_time w
  { w1 with camera := nudge_camera w1.inputs delta_time w1.camera }

/-- Source: `main`, lines 463-652: one iteration of the frame loop as far as the state is
concerned: the pending events are handled in order, then the frame update runs with the
elapsed time `delta_time`. -/
def main_iteration (sqrtf cosf sinf : F → F) (w : World F) (frame : List Event × F) : World F :=
  frame_update sqrtf cosf sinf frame.2 (frame.1.foldl (handle_event sqrtf cosf sinf) w)

/-- The pitch of the walking camera lies in the closed range from 0 to `(float)PI`. -/
def pitch_ok (w : World F) : Prop :=
  0 ≤ w.camera.pitch ∧ w.camera.pitch ≤ PI_float

/-- A state in FreeFly mode with only the X axis key held: the free-fly camera is the default
transform and the walking camera is where main puts it initially. -/
def flying_x_held : World F :=
  { flying := true
    inputs := ⟨false, false, false, false, true, false, false, false⟩
    fly_camera := default_transform
    camera := { pos := vec3 7 5 (17 / 10), pitch := PI / 2, yaw := PI * (65 / 100) } }

/-- The position of the camera that renders the frame (main.c lines 655-659): the free-fly
camera while flying, the walking camera otherwise. -/
def active_pos (w : World F) : Vec3 F :=
  if w.flying then w.fly_camera.pos else w.camera.pos

/-! ## OBJ loader (main.c, lines 151-275)

A C string is the list of its characters before the terminating NUL.  The libc function `atof`
is a function argument; `atoi` and the `%s` conversions of `sscanf` are written out. -/

/-- Modelled from the spec: `vec_cross` is called by `read_obj_file` but linalg.h does not
define it; the spec gives it as the standard 3D cross product. -/
def vec_cross (a b : Vec3 F) : Vec3 F :=
  vec3 (a.y * b.z - a.z * b.y) (a.z * b.x - a.x * b.z) (a.x * b.y - a.y * b.x)

/-- Modelled from the spec: `vec_to` is called by `read_obj_file` but linalg.h does not define
it; the spec gives it as the edge from a to b, `b - a`. -/
def vec_to (a b : Vec3 F) : Vec3 F :=
  vec3 (b.x - a.x) (b.y - a.y) (b.z - a.z)

/-- The libc predicate `isspace` in the C locale: space, tab, newline, vertical tab, form feed
and carriage return. -/
def isspace (c : Char) : Bool :=
  c = ' ' || c = '\t' || c = '\n' || c = Char.ofNat 11 || c = Char.ofNat 12 || c = '\r'

/-- The digit loop of `atoi`: the decimal value of the leading digits, continuing from `acc`. -/
def atoi_digits (acc : Nat) : List Char → Nat
  | [] => acc
  | c :: cs => if c.isDigit then atoi_digits (acc * 10 + (c.toNat - 48)) cs else acc

/-- The number a decimal integer text denotes: white space is skipped, then an optional sign
and the leading decimal digits are read; text without digits gives 0. -/
def decimal_value (str : List Char) : Int :=
  match str.dropWhile isspace with
  | [] => 0
  | c :: cs =>
    if c = '-' then -(atoi_digits 0 cs : Int)
    else if c = '+' then (atoi_digits 0 cs : Int)
    else (atoi_digits 0 (c :: cs) : Int)

/-- The libc function `strtol(str, NULL, 10)` for a 64-bit `long`: the denoted number,
saturated to the range of `long`. -/
def strtol10 (str : List Char) : Int :=
  let v := decimal_value str
  if v < -2 ^ 63 then -2 ^ 63
  else if v > 2 ^ 63 - 1 then 2 ^ 63 - 1
  else v

/-- Conversion of a `long` to the 32-bit `int`: reduction modulo 2^32 into -2^31 .. 2^31 - 1. -/
def to_int (v : Int) : Int :=
  (v + 2 ^ 31) % 2 ^ 32 - 2 ^ 31

/-- The libc function `atoi`, which is `(int) strtol(str, NULL, 10)`: the result is a 32-bit
`int`, so a text denoting a number that does not fit is reduced modulo 2^32. -/
def atoi (str : List Char) : Int :=
  to_int (strtol10 str)

/-- Conversion of an `int` to the unsigned 64-bit `size_t`: reduction modulo 2^64. -/
def to_size_t (k : Int) : Nat :=
  (k % 2 ^ 64).toNat

/-- Source: `after_char`, main.c lines 151-160; `none` is the NULL result. -/
def after_char : List Char → Char → Option (List Char)
  | [], _ => none
  | c :: cs, ch => if c = ch then some cs else after_char cs ch

/-- Source: `set_vert`, main.c lines 161-197.  `f` is the window of 8 floats the pointer `f`
addresses; the window after the call is returned.  Fields of `verts`, `texs`, `norms` are read
only below their counts. -/
def set_vert (f : List F) (str : List Char)
    (verts : List F) (n_verts : Nat) (texs : List F) (n_texs : Nat)
    (norms : List F) (n_norms : Nat) : List F :=
  let i := to_size_t (atoi str - 1)
  let f :=
    if i < n_verts then
      ((f.set 0 (verts.getD (i * 3) 0)).set 1 (verts.getD (i * 3 + 1) 0)).set 2
        (verts.getD (i * 3 + 2) 0)
    else ((f.set 0 0).set 1 0).set 2 0
  match after_char str '/' with
  | some str =>
    let i := to_size_t (atoi str - 1)
    let f :=
      if i < n_texs then (f.set 3 (texs.getD (i * 2) 0)).set 4 (texs.getD (i * 2 + 1) 0)
      else (f.set 3 0).set 4 0
    match after_char str '/' with
    | some str =>
      let i := to_size_t (atoi str - 1)
      if i < n_norms then
        ((f.set 5 (norms.getD (i * 3) 0)).set 6 (norms.getD (i * 3 + 1) 0)).set 7
          (norms.getD (i * 3 + 2) 0)
      else f
    | none => ((f.set 5 0).set 6 0).set 7 0
  | none => ((((f.set 3 0).set 4 0).set 5 0).set 6 0).set 7 0

/-- One `%Ns` conversion of `sscanf`: white space is skipped, then at most `width` characters
that are not white space are stored; the token and the unread rest are returned.  At the end
of the input the token is empty, as the zero-initialised destination stays. -/
def scan_s (width : Nat) (s : List Char) : List Char × List Char :=
  let s := s.dropWhile isspace
  let tok := (s.takeWhile (fun c => !isspace c)).take width
  (tok, s.drop tok.length)

/-- Source: `read_obj_file`, line 226: `sscanf(c, "%7s %15s %15s %15s", cmd, arg1, arg2, arg3)`
on zero-initialised destinations. -/
def sscanf4 (c : List Char) : List Char × List Char × List Char × List Char :=
  let r0 := scan_s 7 c
  let r1 := scan_s 15 r0.2
  let r2 := scan_s 15 r1.2
  let r3 := scan_s 15 r2.2
  (r0.1, r1.1, r2.1, r3.1)

/-- The locals of `read_obj_file` that the line scan updates: the three attribute lists with
their counts, and the output buffer with the face count. -/
structure ObjState (F : Type) where
  verts : List F
  n_verts : Nat
  texs : List F
  n_texs : Nat
  norms : List F
  n_norms : Nat
  faces : List F
  n_faces : Nat
  deriving DecidableEq, Repr

/-- The 8 floats at `base` of the block `realloc` has just added to the output buffer; their
values are indeterminate, `junk` gives them by buffer index. -/
def fresh8 (junk : Nat → F) (base : Nat) : List F :=
  [junk base, junk (base + 1), junk (base + 2), junk (base + 3),
   junk (base + 4), junk (base + 5), junk (base + 6), junk (base + 7)]

/-- Source: `read_obj_file`, lines 244-260: the record `f`.  The three windows of the new
24-float block are set from the three tokens; when the first normal is zero the face normal is
written to all three. -/
def obj_face (sqrtf : F → F) (junk : Nat → F) (arg1 arg2 arg3 : List Char)
    (st : ObjState F) : ObjState F :=
  let base := st.n_faces * 24
  let f0 := set_vert (fresh8 junk base) arg1
    st.verts st.n_verts st.texs st.n_texs st.norms st.n_norms
  let f8 := set_vert (fresh8 junk (base + 8)) arg2
    st.verts st.n_verts st.texs st.n_texs st.norms st.n_norms
  let f16 := set_vert (fresh8 junk (base + 16)) arg3
    st.verts st.n_verts st.texs st.n_texs st.norms st.n_norms
  if f0.getD 5 0 = 0 ∧ f0.getD 6 0 = 0 ∧ f0.getD 7 0 = 0 then
    let v1 := vec3 (f0.getD 0 0) (f0.getD 1 0) (f0.getD 2 0)
    let v2 := vec3 (f8.getD 0 0) (f8.getD 1 0) (f8.getD 2 0)
    let v3 := vec3 (f16.getD 0 0) (f16.getD 1 0) (f16.getD 2 0)
    let norm := vec_cross (vec_to v1 v2) (vec_to v1 v3)
    let norm := vec_norm sqrtf norm
    let f0 := ((f0.set 5 norm.x).set 6 norm.y).set 7 norm.z
    let f8 := ((f8.set 5 norm.x).set 6 norm.y).set 7 norm.z
    let f16 := ((f16.set 5 norm.x).set 6 norm.y).set 7 norm.z
    { st with faces := st.faces ++ (f0 ++ f8 ++ f16), n_faces := st.n_faces + 1 }
  else
    { st with faces := st.faces ++ (f0 ++ f8 ++ f16), n_faces := st.n_faces + 1 }

/-- Source: `read_obj_file`, lines 224-262: the record at the line start `c`.  A line whose
first character is `#` is skipped; otherwise the four tokens are scanned from `c` and the
keyword selects the list that grows. -/
def obj_record (sqrtf : F → F) (atof : List Char → F) (junk : Nat → F)
    (c : List Char) (st : ObjState F) : ObjState F :=
  if c.head? = some '#' then st
  else
    let t := sscanf4 c
    let cmd := t.1
    let arg1 := t.2.1
    let arg2 := t.2.2.1
    let arg3 := t.2.2.2
    if cmd = ['v'] then
      { st with verts := st.verts ++ [atof arg1, atof arg2, atof arg3],
                n_verts := st.n_verts + 1 }
    else if cmd = ['v', 't'] then
      { st with texs := st.texs ++ [atof arg1, atof arg2], n_texs := st.n_texs + 1 }
    else if cmd = ['v', 'n'] then
      { st with norms := st.norms ++ [atof arg1, atof arg2, atof arg3],
                n_norms := st.n_norms + 1 }
    else if cmd = ['f'] then obj_face sqrtf junk arg1 arg2 arg3 st
    else st

/-- Source: `read_obj_file`, lines 263-268: from a line start to the next one; the rest of the
line is passed, then every newline that follows. -/
def next_line (c : List Char) : List Char :=
  (c.dropWhile (fun ch => ch != '\n')).dropWhile (fun ch => ch == '\n')

/-- Source: `read_obj_file`, lines 223-269: the loop `while (c[0] != 0)` over the line starts. -/
def obj_loop (sqrtf : F → F) (atof : List Char → F) (junk : Nat → F) :
    List Char → ObjState F → ObjState F
  | [], st => st
  | ch :: cs, st =>
    obj_loop sqrtf atof junk (next_line (ch :: cs))
      (obj_record sqrtf atof junk (ch :: cs) st)
termination_by c => c.length
decreasing_by
  simp only [next_line, List.length_cons]
  by_cases h : ch = '\n'
  · subst h
    simp only [List.dropWhile_cons, bne_self_eq_false, Bool.false_eq_true, if_false,
      beq_self_eq_true, if_true]
    exact Nat.lt_succ_of_le (List.dropWhile_sublist _).length_le
  · have h1 : (ch != '\n') = true := by simpa using h
    simp only [List.dropWhile_cons, h1, if_true]
    exact Nat.lt_succ_of_le
      (le_trans (List.dropWhile_sublist _).length_le (List.dropWhile_sublist _).length_le)

/-- Source: `read_obj_file`, main.c lines 198-275.  `content` is what `read_file` returned for
the asset (`none` for NULL); the result is the returned flag, `*faces` and `*n_faces`. -/
def read_obj_file (sqrtf : F → F) (atof : List Char → F) (junk : Nat → F)
    (content : Option (List Char)) : Bool × List F × Nat :=
  match content with
  | none => (false, [], 0)
  | some c =>
    let st := obj_loop sqrtf atof junk c ⟨[], 0, [], 0, [], 0, [], 0⟩
    (true, st.faces, st.n_faces)

/-! ## Notions used by the loader properties -/

/-- An `atof` for texts that are integer literals: the value `atoi` reads, as a float. -/
def atof_int (s : List Char) : F :=
  (atoi s : F)

/-- A scanned token: a non-empty text without white space. -/
def is_token (t : List Char) : Prop :=
  t ≠ [] ∧ ∀ c ∈ t, isspace c = false

/-- The text of one record line: keyword and three arguments separated by single spaces,
ended by a newline. -/
def obj_line (k a b c : List Char) : List Char :=
  k ++ ' ' :: (a ++ ' ' :: (b ++ ' ' :: (c ++ ['\n'])))

/-- The lines of a text: the maximal runs of characters between newlines. -/
def split_lines : List Char → List (List Char)
  | [] => [[]]
  | c :: cs =>
    if c = '\n' then [] :: split_lines cs
    else
      match split_lines cs with
      | [] => [[c]]
      | l :: ls => (c :: l) :: ls

/-- The record keyword of a line: its first white-space-delimited token. -/
def line_keyword (line : List Char) : List Char :=
  (line.dropWhile isspace).takeWhile (fun c => !isspace c)

/-- The number of lines of a text whose record keyword is `f`. -/
def f_line_count (text : List Char) : Nat :=
  ((split_lines text).filter (fun l => line_keyword l = ['f'])).length

/-! ## Notions used by the properties but absent from the source -/

/-- The transpose of a 4x4 matrix (rows and columns exchanged).  The source has no such
function; it is the mathematical notion the orthogonality property is stated with. -/
def mat_transpose (m : Mat4 F) : Mat4 F :=
  mat4
    m.xx m.yx m.zx m.wx
    m.xy m.yy m.zy m.wy
    m.xz m.yz m.zz m.wz
    m.xw m.yw m.zw m.ww

/-- The squared norm w^2 + x^2 + y^2 + z^2 of a quaternion. -/
def quat_norm_sq (q : Quat F) : F :=
  q.w ^ 2 + q.x ^ 2 + q.y ^ 2 + q.z ^ 2

/-- The standard rotation about the X axis by the angle t, as a 4x4 matrix. -/
def mat_rot_x (cosf sinf : F → F) (t : F) : Mat4 F :=
  mat4
    1 0 0 0
    0 (cosf t) (-sinf t) 0
    0 (sinf t) (cosf t) 0
    0 0 0 1

/-- The standard rotation about the Z axis by the angle t, as a 4x4 matrix. -/
def mat_rot_z (cosf sinf : F → F) (t : F) : Mat4 F :=
  mat4
    (cosf t) (-sinf t) 0 0
    (sinf t) (cosf t) 0 0
    0 0 1 0
    0 0 0 1

/-- The norm of a quaternion, the square root of w^2 + x^2 + y^2 + z^2. -/
def quat_norm (sqrtf : F → F) (q : Quat F) : F :=
  sqrtf (quat_norm_sq q)

/-- The free-fly orientation of the state has unit norm. -/
def rot_ok (w : World F) : Prop :=
  quat_norm_sq w.fly_camera.rot = 1

/-- The L1 length |x| + |y| + |z| of a vector: the value `vec_to_circular` computes in its
local `sum`. -/
def vec_l1 (v : Vec3 F) : F :=
  fabsf v.x + fabsf v.y + fabsf v.z

end Defs

/-! ## Theorems -/

section Algebra

variable {F : Type} [LinearOrderedField F]

/-- C1: for every unit quaternion q (w^2+x^2+y^2+z^2 = 1) the matrix M = quat_to_mat q is
orthogonal: mat_mul M (transpose M) is exactly mat_identity.  Stated in exact arithmetic over
any ordered field F, in particular the reals. -/
theorem quat_to_mat_orthogonal (q : Quat F)
    (hq : q.w ^ 2 + q.x ^ 2 + q.y ^ 2 + q.z ^ 2 = 1) :
    mat_mul (quat_to_mat q) (mat_transpose (quat_to_mat q)) = mat_identity := by
  obtain ⟨w, x, y, z⟩ := q
  simp only at hq
  simp only [mat_mul, quat_to_mat, mat_transpose, mat_identity, mat4, Mat4.mk.injEq]
  refine ⟨?_, ?_, ?_, ?_, ?_, ?_, ?_, ?_, ?_, ?_, ?_, ?_, ?_, ?_, ?_, ?_⟩
  · linear_combination (4 * (y ^ 2 + z ^ 2)) * hq
  · linear_combination (-4 * (x * y)) * hq
  · linear_combination (-4 * (x * z)) * hq
  · ring
  · linear_combination (-4 * (x * y)) * hq
  · linear_combination (4 * (x ^ 2 + z ^ 2)) * hq
  · linear_combination (-4 * (y * z)) * hq
  · ring
  · linear_combination (-4 * (x * z)) * hq
  · linear_combination (-4 * (y * z)) * hq
  · linear_combination (4 * (x ^ 2 + y ^ 2)) * hq
  · ring
  · ring
  · ring
  · ring
  · ring

/-- Witness for C1 at the real unit quaternion (1/2, 1/2, 1/2, 1/2). -/
theorem quat_to_mat_orthogonal_witness :
    ((1 / 2 : ℝ) ^ 2 + (1 / 2) ^ 2 + (1 / 2) ^ 2 + (1 / 2) ^ 2 = 1) ∧
    mat_mul (quat_to_mat (quat (1 / 2 : ℝ) (1 / 2) (1 / 2) (1 / 2)))
        (mat_transpose (quat_to_mat (quat (1 / 2 : ℝ) (1 / 2) (1 / 2) (1 / 2)))) =
      mat_identity :=
  ⟨by norm_num, quat_to_mat_orthogonal (quat (1 / 2 : ℝ) (1 / 2) (1 / 2) (1 / 2))
    (by norm_num [quat])⟩

/-- C2: for every 4x4 matrix M, mat_mul mat_identity M = M and mat_mul M mat_identity = M,
entry by entry (equality of all sixteen fields). -/
theorem mat_mul_identity (M : Mat4 F) :
    mat_mul mat_identity M = M ∧ mat_mul M mat_identity = M := by
  obtain ⟨xx, xy, xz, xw, yx, yy, yz, yw, zx, zy, zz, zw, wx, wy, wz, ww⟩ := M
  constructor <;> simp [mat_mul, mat_identity, mat4]

/-- C3: quat_mul is non-commutative.  For all quaternions a and b, quat_mul a b = quat_mul b a
if and only if the cross product of their vector parts (x, y, z) is zero (all three components
of the cross product vanish); and for a = (0,1,0,0), b = (0,0,1,0) the two products differ. -/
theorem quat_mul_comm_iff_cross_zero :
    (∀ a b : Quat F, quat_mul a b = quat_mul b a ↔
        (a.y * b.z - a.z * b.y = 0 ∧ a.z * b.x - a.x * b.z = 0 ∧ a.x * b.y - a.y * b.x = 0)) ∧
    quat_mul (quat (0 : F) 1 0 0) (quat 0 0 1 0) ≠ quat_mul (quat (0 : F) 0 1 0) (quat 0 1 0 0) := by
  refine ⟨?_, ?_⟩
  · rintro ⟨aw, ax, ay, az⟩ ⟨bw, bx, by_, bz⟩
    simp only [quat_mul, quat, Quat.mk.injEq]
    constructor
    · rintro ⟨-, h1, h2, h3⟩
      have two : (2 : F) ≠ 0 := two_ne_zero
      refine ⟨?_, ?_, ?_⟩
      · apply mul_left_cancel₀ two
        linear_combination h1
      · apply mul_left_cancel₀ two
        linear_combination h2
      · apply mul_left_cancel₀ two
        linear_combination h3
    · rintro ⟨h1, h2, h3⟩
      refine ⟨by ring, ?_, ?_, ?_⟩
      · linear_combination 2 * h1
      · linear_combination 2 * h2
      · linear_combination 2 * h3
  · simp only [quat_mul, quat, ne_eq, Quat.mk.injEq, not_and]
    intro _ _ _ h
    have h2 : (2 : F) = 0 := by linear_combination h
    exact two_ne_zero h2

/-- C4: quat_to_mat applied to the identity quaternion quat(1,0,0,0) is mat_identity. -/
theorem quat_to_mat_identity :
    quat_to_mat (quat (1 : F) 0 0 0) = mat_identity := by
  simp [quat_to_mat, quat, mat_identity, mat4]

end Algebra

/-! ### Lengths over the reals (libm `sqrtf` read as `Real.sqrt`) -/

section Lengths

lemma vec_len_sq_nonneg (v : Vec3 ℝ) : 0 ≤ vec_len_sq v := by
  unfold vec_len_sq
  nlinarith [mul_self_nonneg v.x, mul_self_nonneg v.y, mul_self_nonneg v.z]

lemma vec_len_nonneg (v : Vec3 ℝ) : 0 ≤ vec_len Real.sqrt v :=
  Real.sqrt_nonneg _

lemma vec_len_mul_self (v : Vec3 ℝ) :
    vec_len Real.sqrt v * vec_len Real.sqrt v = vec_len_sq v :=
  Real.mul_self_sqrt (vec_len_sq_nonneg v)

lemma vec_len_sq_scale (v : Vec3 ℝ) (s : ℝ) :
    vec_len_sq (vec_scale v s) = vec_len_sq v * s ^ 2 := by
  simp only [vec_len_sq, vec_scale, vec3]
  ring

lemma vec_len_scale (v : Vec3 ℝ) (s : ℝ) :
    vec_len Real.sqrt (vec_scale v s) = vec_len Real.sqrt v * |s| := by
  unfold vec_len
  rw [vec_len_sq_scale, Real.sqrt_mul (vec_len_sq_nonneg v), Real.sqrt_sq_eq_abs]

lemma vec_l1_nonneg (v : Vec3 ℝ) : 0 ≤ vec_l1 v := by
  unfold vec_l1 fabsf
  positivity

lemma vec_l1_scale (v : Vec3 ℝ) (s : ℝ) : vec_l1 (vec_scale v s) = vec_l1 v * |s| := by
  simp only [vec_l1, fabsf, vec_scale, vec3, abs_mul]
  ring

lemma vec_len_sq_le_l1_sq (v : Vec3 ℝ) : vec_len_sq v ≤ vec_l1 v ^ 2 := by
  unfold vec_len_sq vec_l1 fabsf
  have hx := abs_mul_abs_self v.x
  have hy := abs_mul_abs_self v.y
  have hz := abs_mul_abs_self v.z
  nlinarith [abs_nonneg v.x, abs_nonneg v.y, abs_nonneg v.z,
    mul_nonneg (abs_nonneg v.x) (abs_nonneg v.y),
    mul_nonneg (abs_nonneg v.x) (abs_nonneg v.z),
    mul_nonneg (abs_nonneg v.y) (abs_nonneg v.z)]

lemma vec_len_le_l1 (v : Vec3 ℝ) : vec_len Real.sqrt v ≤ vec_l1 v := by
  unfold vec_len
  exact Real.sqrt_le_iff.mpr ⟨vec_l1_nonneg v, vec_len_sq_le_l1_sq v⟩

lemma FLT_EPSILON_pos : (0 : ℝ) < FLT_EPSILON := by
  unfold FLT_EPSILON
  positivity

/-- On the scaling branch both the length and the L1 sum are positive, and the result is the
input scaled by len / sum. -/
lemma vec_to_circular_scaled (v : Vec3 ℝ) (h : FLT_EPSILON ≤ vec_len Real.sqrt v) :
    0 < vec_len Real.sqrt v ∧ 0 < vec_l1 v ∧
    vec_to_circular Real.sqrt v = vec_scale v (vec_len Real.sqrt v / vec_l1 v) := by
  have hlen : 0 < vec_len Real.sqrt v := lt_of_lt_of_le FLT_EPSILON_pos h
  refine ⟨hlen, lt_of_lt_of_le hlen (vec_len_le_l1 v), ?_⟩
  simp only [vec_to_circular, vec_l1]
  rw [if_neg (not_lt.mpr h)]

/-- The Euclidean length of (3,4,0) is 5. -/
lemma vec_len_three_four : vec_len Real.sqrt (vec3 (3 : ℝ) 4 0) = 5 := by
  have h : vec_len_sq (vec3 (3 : ℝ) 4 0) = 5 * 5 := by
    norm_num [vec_len_sq, vec3]
  unfold vec_len
  rw [h]
  exact Real.sqrt_mul_self (by norm_num)

/-- C5: for every vector v with non-zero length, vec_len (vec_norm v) = 1 in exact real
arithmetic, and vec_norm v is a positive multiple of v (v scaled by some c > 0). -/
theorem vec_norm_len_one (v : Vec3 ℝ) (h : vec_len Real.sqrt v ≠ 0) :
    vec_len Real.sqrt (vec_norm Real.sqrt v) = 1 ∧
    ∃ c : ℝ, 0 < c ∧ vec_norm Real.sqrt v = vec_scale v c := by
  have hpos : 0 < vec_len Real.sqrt v := lt_of_le_of_ne (vec_len_nonneg v) (Ne.symm h)
  have hc : 0 < 1 / vec_len Real.sqrt v := one_div_pos.mpr hpos
  refine ⟨?_, 1 / vec_len Real.sqrt v, hc, rfl⟩
  unfold vec_norm
  rw [vec_len_scale, abs_of_pos hc]
  field_simp

/-- Witness for C5 at v = (3,4,0), whose length is 5. -/
theorem vec_norm_len_one_witness :
    vec_len Real.sqrt (vec3 (3 : ℝ) 4 0) ≠ 0 ∧
    (vec_len Real.sqrt (vec_norm Real.sqrt (vec3 (3 : ℝ) 4 0)) = 1 ∧
      ∃ c : ℝ, 0 < c ∧ vec_norm Real.sqrt (vec3 (3 : ℝ) 4 0) = vec_scale (vec3 3 4 0) c) :=
  ⟨by rw [vec_len_three_four]; norm_num,
   vec_norm_len_one (vec3 3 4 0) (by rw [vec_len_three_four]; norm_num)⟩

/-- C6: vec_to_circular v returns v unchanged when |v| < FLT_EPSILON and otherwise returns v
scaled by |v| / (|x|+|y|+|z|).  Consequently every axis-aligned vector (a,0,0), (0,a,0), (0,0,a)
is returned unchanged (so (1,0,0) maps to (1,0,0)), and (3,4,0) maps to (15/7, 20/7, 0). -/
theorem vec_to_circular_spec :
    (∀ v : Vec3 ℝ, vec_to_circular Real.sqrt v =
        if vec_len Real.sqrt v < FLT_EPSILON then v
        else vec_scale v (vec_len Real.sqrt v / (|v.x| + |v.y| + |v.z|))) ∧
    (∀ a : ℝ, vec_to_circular Real.sqrt (vec3 a 0 0) = vec3 a 0 0 ∧
        vec_to_circular Real.sqrt (vec3 0 a 0) = vec3 0 a 0 ∧
        vec_to_circular Real.sqrt (vec3 0 0 a) = vec3 0 0 a) ∧
    vec_to_circular Real.sqrt (vec3 (1 : ℝ) 0 0) = vec3 1 0 0 ∧
    vec_to_circular Real.sqrt (vec3 (3 : ℝ) 4 0) = vec3 (15 / 7) (20 / 7) 0 := by
  have axis : ∀ v : Vec3 ℝ, vec_len Real.sqrt v = vec_l1 v →
      vec_to_circular Real.sqrt v = v := by
    intro v hv
    by_cases hlt : vec_len Real.sqrt v < FLT_EPSILON
    · simp only [vec_to_circular]
      rw [if_pos hlt]
    · obtain ⟨hlen, -, hr⟩ := vec_to_circular_scaled v (not_lt.mp hlt)
      rw [hr, ← hv, div_self (ne_of_gt hlen)]
      simp [vec_scale, vec3]
  have hax : ∀ a : ℝ, vec_to_circular Real.sqrt (vec3 a 0 0) = vec3 a 0 0 ∧
        vec_to_circular Real.sqrt (vec3 0 a 0) = vec3 0 a 0 ∧
        vec_to_circular Real.sqrt (vec3 0 0 a) = vec3 0 0 a := by
    intro a
    refine ⟨axis _ ?_, axis _ ?_, axis _ ?_⟩ <;>
      simp [vec_len, vec_len_sq, vec_l1, fabsf, vec3, ← sq, Real.sqrt_sq_eq_abs]
  refine ⟨fun v => rfl, hax, (hax 1).1, ?_⟩
  have h5 : FLT_EPSILON ≤ vec_len Real.sqrt (vec3 (3 : ℝ) 4 0) := by
    rw [vec_len_three_four]
    norm_num [FLT_EPSILON]
  obtain ⟨-, -, hr⟩ := vec_to_circular_scaled _ h5
  rw [hr, vec_len_three_four]
  norm_num [vec_scale, vec3, vec_l1, fabsf]

/-- C7 as stated fails: for v = (3,4,0), whose length 5 is above FLT_EPSILON, the result
r = vec_to_circular v = (15/7, 20/7, 0) has Euclidean length 25/7 but L1 length 5. -/
theorem vec_to_circular_len_ne_l1 :
    FLT_EPSILON ≤ vec_len Real.sqrt (vec3 (3 : ℝ) 4 0) ∧
    vec_len Real.sqrt (vec_to_circular Real.sqrt (vec3 (3 : ℝ) 4 0)) ≠
      |(vec_to_circular Real.sqrt (vec3 (3 : ℝ) 4 0)).x| +
      |(vec_to_circular Real.sqrt (vec3 (3 : ℝ) 4 0)).y| +
      |(vec_to_circular Real.sqrt (vec3 (3 : ℝ) 4 0)).z| := by
  have h5 : FLT_EPSILON ≤ vec_len Real.sqrt (vec3 (3 : ℝ) 4 0) := by
    rw [vec_len_three_four]
    norm_num [FLT_EPSILON]
  obtain ⟨-, -, hr⟩ := vec_to_circular_scaled _ h5
  refine ⟨h5, ?_⟩
  rw [hr, vec_len_scale, vec_len_three_four]
  norm_num [vec_scale, vec3, vec_l1, fabsf, abs_of_pos]

/-- C7, amended: for every vector v with |v| >= FLT_EPSILON and r = vec_to_circular v, the L1
length of the result equals the Euclidean length of the input, |r.x|+|r.y|+|r.z| = vec_len v,
while the Euclidean length of the result is vec_len v ^ 2 / (|v.x|+|v.y|+|v.z|), which is at most
the result's L1 length. -/
theorem vec_to_circular_l1_eq_len (v : Vec3 ℝ) (h : FLT_EPSILON ≤ vec_len Real.sqrt v) :
    |(vec_to_circular Real.sqrt v).x| + |(vec_to_circular Real.sqrt v).y| +
        |(vec_to_circular Real.sqrt v).z| = vec_len Real.sqrt v ∧
    vec_len Real.sqrt (vec_to_circular Real.sqrt v) =
        vec_len Real.sqrt v ^ 2 / (|v.x| + |v.y| + |v.z|) ∧
    vec_len Real.sqrt (vec_to_circular Real.sqrt v) ≤
        |(vec_to_circular Real.sqrt v).x| + |(vec_to_circular Real.sqrt v).y| +
        |(vec_to_circular Real.sqrt v).z| := by
  obtain ⟨hlen, hsum, hr⟩ := vec_to_circular_scaled v h
  have hk : 0 < vec_len Real.sqrt v / vec_l1 v := div_pos hlen hsum
  have h1 : vec_l1 (vec_to_circular Real.sqrt v) = vec_len Real.sqrt v := by
    rw [hr, vec_l1_scale, abs_of_pos hk]
    field_simp
  have h2 : vec_len Real.sqrt (vec_to_circular Real.sqrt v) =
      vec_len Real.sqrt v ^ 2 / vec_l1 v := by
    rw [hr, vec_len_scale, abs_of_pos hk]
    ring
  refine ⟨h1, h2, ?_⟩
  change _ ≤ vec_l1 (vec_to_circular Real.sqrt v)
  rw [h1, h2, div_le_iff₀ hsum, sq]
  exact mul_le_mul_of_nonneg_left (vec_len_le_l1 v) (le_of_lt hlen)

/-- Witness for the amended C7 at v = (3,4,0). -/
theorem vec_to_circular_l1_eq_len_witness :
    FLT_EPSILON ≤ vec_len Real.sqrt (vec3 (3 : ℝ) 4 0) ∧
    |(vec_to_circular Real.sqrt (vec3 (3 : ℝ) 4 0)).x| +
        |(vec_to_circular Real.sqrt (vec3 (3 : ℝ) 4 0)).y| +
        |(vec_to_circular Real.sqrt (vec3 (3 : ℝ) 4 0)).z| =
      vec_len Real.sqrt (vec3 (3 : ℝ) 4 0) :=
  ⟨by rw [vec_len_three_four]; norm_num [FLT_EPSILON],
   (vec_to_circular_l1_eq_len (vec3 3 4 0)
      (by rw [vec_len_three_four]; norm_num [FLT_EPSILON])).1⟩

/-- C8: diagonal movement never exceeds single-axis speed.  For every vector v with
|v| >= FLT_EPSILON, vec_len (vec_to_circular v) <= max(|v.x|, |v.y|, |v.z|); and when every
non-zero component of v has the same absolute value s (such as forward+strafe (s,s,0)), the
result has length exactly s. -/
theorem vec_to_circular_len_le_max (v : Vec3 ℝ) (h : FLT_EPSILON ≤ vec_len Real.sqrt v) :
    vec_len Real.sqrt (vec_to_circular Real.sqrt v) ≤ max |v.x| (max |v.y| |v.z|) ∧
    ∀ s : ℝ, (v.x = 0 ∨ |v.x| = s) → (v.y = 0 ∨ |v.y| = s) → (v.z = 0 ∨ |v.z| = s) →
      vec_len Real.sqrt (vec_to_circular Real.sqrt v) = s := by
  obtain ⟨hlen, hsum, hr⟩ := vec_to_circular_scaled v h
  have hk : 0 < vec_len Real.sqrt v / vec_l1 v := div_pos hlen hsum
  have hlr : vec_len Real.sqrt (vec_to_circular Real.sqrt v) = vec_len_sq v / vec_l1 v := by
    rw [hr, vec_len_scale, abs_of_pos hk, ← vec_len_mul_self]
    ring
  have hsq : ∀ a : ℝ, a * a = |a| * |a| := fun a => (abs_mul_abs_self a).symm
  rw [hlr]
  constructor
  · rw [div_le_iff₀ hsum]
    have hx : |v.x| ≤ max |v.x| (max |v.y| |v.z|) := le_max_left _ _
    have hy : |v.y| ≤ max |v.x| (max |v.y| |v.z|) :=
      le_trans (le_max_left _ _) (le_max_right _ _)
    have hz : |v.z| ≤ max |v.x| (max |v.y| |v.z|) :=
      le_trans (le_max_right _ _) (le_max_right _ _)
    have ex := mul_le_mul_of_nonneg_right hx (abs_nonneg v.x)
    have ey := mul_le_mul_of_nonneg_right hy (abs_nonneg v.y)
    have ez := mul_le_mul_of_nonneg_right hz (abs_nonneg v.z)
    simp only [vec_len_sq, vec_l1, fabsf]
    rw [hsq v.x, hsq v.y, hsq v.z]
    linarith
  · intro s hx hy hz
    have comp : ∀ a : ℝ, (a = 0 ∨ |a| = s) → a * a = s * |a| := by
      intro a ha
      rcases ha with ha | ha
      · simp [ha]
      · rw [hsq a, ha]
    have hs : vec_len_sq v = s * vec_l1 v := by
      simp only [vec_len_sq, vec_l1, fabsf]
      rw [comp _ hx, comp _ hy, comp _ hz]
      ring
    rw [hs]
    field_simp

/-- Witness for C8 at the forward+strafe vector (3,3,0): its length is above FLT_EPSILON and the
conditioned vector has length exactly 3. -/
theorem vec_to_circular_len_le_max_witness :
    FLT_EPSILON ≤ vec_len Real.sqrt (vec3 (3 : ℝ) 3 0) ∧
    vec_len Real.sqrt (vec_to_circular Real.sqrt (vec3 (3 : ℝ) 3 0)) = 3 := by
  have h3 : FLT_EPSILON ≤ vec_len Real.sqrt (vec3 (3 : ℝ) 3 0) := by
    apply Real.le_sqrt_of_sq_le
    norm_num [FLT_EPSILON, vec_len_sq, vec3]
  exact ⟨h3, (vec_to_circular_len_le_max (vec3 3 3 0) h3).2 3
    (Or.inr (by norm_num [vec3])) (Or.inr (by norm_num [vec3])) (Or.inl rfl)⟩

end Lengths

/-! ### Projection and view matrices -/

section Views

/-- C9 as stated fails: with the width/height aspect 2 passed as second argument, vertical
field of view pi/2 (so tan(fov/2) = 1), n = 1 and f = 3, the code gives xx = 2, not
cot(fov/2)/aspect = 1/2. -/
theorem mat_from_persp_xx_ne_cot_div_aspect :
    (1 : ℝ) ≠ 3 ∧ Real.tan (Real.pi / 2 / 2) ≠ 0 ∧
    (mat_from_persp Real.tan (Real.pi / 2) 2 1 3).xx = 2 ∧
    (mat_from_persp Real.tan (Real.pi / 2) 2 1 3).xx ≠ Real.cot (Real.pi / 2 / 2) / 2 := by
  have e : Real.pi / 2 / 2 = Real.pi / 4 := by ring
  have hc : Real.cot (Real.pi / 4) = 1 := by
    rw [Real.cot_eq_cos_div_sin, Real.cos_pi_div_four, Real.sin_pi_div_four]
    have h2 : Real.sqrt 2 / 2 ≠ 0 := by positivity
    exact div_self h2
  simp only [mat_from_persp, mat4]
  rw [e, Real.tan_pi_div_four, hc]
  norm_num

/-- C9, amended: the second argument of mat_from_persp is the ratio height/width, the reciprocal
of the width/height aspect (main passes ratio_hw = h / w).  For n != f and tan(fov/2) != 0 the
result is the standard perspective projection matrix: xx = ratio * cot(fov/2), which is
cot(fov/2)/aspect when ratio = 1/aspect, yy = cot(fov/2), zz = -(f+n)/(f-n),
zw = -2*f*n/(f-n), bottom row (0,0,-1,0), and every other entry 0.  With the ratio h / w that
main passes for a w x h window, xx = cot(fov/2) / (w/h). -/
theorem mat_from_persp_spec (fov ratio n f aspect : ℝ)
    (hnf : n ≠ f) (ht : Real.tan (fov / 2) ≠ 0) (ha : aspect ≠ 0) :
    mat_from_persp Real.tan fov ratio n f =
      mat4
        (ratio * Real.cot (fov / 2)) 0 0 0
        0 (Real.cot (fov / 2)) 0 0
        0 0 (-(f + n) / (f - n)) (-2 * f * n / (f - n))
        0 0 (-1) 0 ∧
    (mat_from_persp Real.tan fov (1 / aspect) n f).xx = Real.cot (fov / 2) / aspect ∧
    ∀ w h : ℝ, (window_proj Real.tan w h).xx = Real.cot (60 * PI / 180 / 2) / (w / h) := by
  have hcot : ∀ t : ℝ, 1 / Real.tan t = Real.cot t := by
    intro t
    rw [Real.cot_eq_cos_div_sin, Real.tan_eq_sin_div_cos, one_div, inv_div]
  have _ := ht
  have h1 : f - n ≠ 0 := sub_ne_zero.mpr (Ne.symm hnf)
  have h2 : n - f ≠ 0 := sub_ne_zero.mpr hnf
  have hzw : 2 * f * n / (n - f) = -2 * f * n / (f - n) := by
    field_simp
    ring
  refine ⟨?_, ?_, ?_⟩
  · simp only [mat_from_persp, mat4, hcot, hzw]
  · simp only [mat_from_persp, mat4, hcot]
    field_simp
  · intro w h
    simp only [window_proj, mat_from_persp, mat4, hcot]
    rw [div_div_eq_mul_div]
    ring

/-- Witness for the amended C9 at fov = pi/2, ratio = 480/852, n = 1/100, f = 300 and
aspect = 852/480 (the initial 852 x 480 window). -/
theorem mat_from_persp_spec_witness :
    ((1 / 100 : ℝ) ≠ 300 ∧ Real.tan (Real.pi / 2 / 2) ≠ 0 ∧ (852 / 480 : ℝ) ≠ 0) ∧
    (mat_from_persp Real.tan (Real.pi / 2) (480 / 852) (1 / 100) 300 =
      mat4
        (480 / 852 * Real.cot (Real.pi / 2 / 2)) 0 0 0
        0 (Real.cot (Real.pi / 2 / 2)) 0 0
        0 0 (-(300 + 1 / 100) / (300 - 1 / 100)) (-2 * 300 * (1 / 100) / (300 - 1 / 100))
        0 0 (-1) 0 ∧
    (mat_from_persp Real.tan (Real.pi / 2) (1 / (852 / 480)) (1 / 100) 300).xx =
      Real.cot (Real.pi / 2 / 2) / (852 / 480)) := by
  have hn : (1 / 100 : ℝ) ≠ 300 := by norm_num
  have ht : Real.tan (Real.pi / 2 / 2) ≠ 0 := by
    rw [show Real.pi / 2 / 2 = Real.pi / 4 by ring, Real.tan_pi_div_four]
    norm_num
  have ha : (852 / 480 : ℝ) ≠ 0 := by norm_num
  have hs := mat_from_persp_spec (Real.pi / 2) (480 / 852) (1 / 100) 300 (852 / 480) hn ht ha
  exact ⟨⟨hn, ht, ha⟩, hs.1, hs.2.1⟩

end Views

section ViewAlgebra

variable {F : Type} [LinearOrderedField F]

/-- C10: the FreeFly view matrix inverts the camera's world transform.  The view matrix main
builds in flying mode is view = mat_mul (quat_to_mat (quat_neg q)) (mat_from_pos (vec_neg p))
(rotation of the conjugate times translation by the negated position), and for every position p
and every unit quaternion q, mat_mul view (mat_mul (mat_from_pos p) (quat_to_mat q)) is
mat_identity; in particular the conjugate's rotation matrix is the inverse of q's. -/
theorem fly_view_inverts_world (sqrtf cosf sinf : F → F) (p s : Vec3 F) (q : Quat F)
    (cam : Camera F) (hq : q.w ^ 2 + q.x ^ 2 + q.y ^ 2 + q.z ^ 2 = 1) :
    view_matrix sqrtf cosf sinf true ⟨p, q, s⟩ cam =
      mat_mul (quat_to_mat (quat_neg q)) (mat_from_pos (vec_neg p)) ∧
    mat_mul (mat_mul (quat_to_mat (quat_neg q)) (mat_from_pos (vec_neg p)))
      (mat_mul (mat_from_pos p) (quat_to_mat q)) = mat_identity ∧
    mat_mul (quat_to_mat (quat_neg q)) (quat_to_mat q) = mat_identity := by
  obtain ⟨w, x, y, z⟩ := q
  obtain ⟨px, py, pz⟩ := p
  simp only at hq
  refine ⟨by simp [view_matrix], ?_, ?_⟩
  · simp only [mat_mul, quat_to_mat, quat_neg, quat, mat_from_pos, vec_neg, vec_scale, vec3,
      mat_identity, mat4, Mat4.mk.injEq]
    refine ⟨?_, ?_, ?_, ?_, ?_, ?_, ?_, ?_, ?_, ?_, ?_, ?_, ?_, ?_, ?_, ?_⟩
    · linear_combination (4 * (y ^ 2 + z ^ 2)) * hq
    · linear_combination (-4 * (x * y)) * hq
    · linear_combination (-4 * (x * z)) * hq
    · ring
    · linear_combination (-4 * (x * y)) * hq
    · linear_combination (4 * (x ^ 2 + z ^ 2)) * hq
    · linear_combination (-4 * (y * z)) * hq
    · ring
    · linear_combination (-4 * (x * z)) * hq
    · linear_combination (-4 * (y * z)) * hq
    · linear_combination (4 * (x ^ 2 + y ^ 2)) * hq
    · ring
    · ring
    · ring
    · ring
    · ring
  · simp only [mat_mul, quat_to_mat, quat_neg, quat, mat_identity, mat4, Mat4.mk.injEq]
    refine ⟨?_, ?_, ?_, ?_, ?_, ?_, ?_, ?_, ?_, ?_, ?_, ?_, ?_, ?_, ?_, ?_⟩
    · linear_combination (4 * (y ^ 2 + z ^ 2)) * hq
    · linear_combination (-4 * (x * y)) * hq
    · linear_combination (-4 * (x * z)) * hq
    · ring
    · linear_combination (-4 * (x * y)) * hq
    · linear_combination (4 * (x ^ 2 + z ^ 2)) * hq
    · linear_combination (-4 * (y * z)) * hq
    · ring
    · linear_combination (-4 * (x * z)) * hq
    · linear_combination (-4 * (y * z)) * hq
    · linear_combination (4 * (x ^ 2 + y ^ 2)) * hq
    · ring
    · ring
    · ring
    · ring
    · ring

/-- Witness for C10 at the position (1,2,3) and the real unit quaternion (1/2,1/2,1/2,1/2). -/
theorem fly_view_inverts_world_witness :
    ((1 / 2 : ℝ) ^ 2 + (1 / 2) ^ 2 + (1 / 2) ^ 2 + (1 / 2) ^ 2 = 1) ∧
    mat_mul
      (mat_mul (quat_to_mat (quat_neg (quat (1 / 2 : ℝ) (1 / 2) (1 / 2) (1 / 2))))
        (mat_from_pos (vec_neg (vec3 1 2 3))))
      (mat_mul (mat_from_pos (vec3 1 2 3))
        (quat_to_mat (quat (1 / 2 : ℝ) (1 / 2) (1 / 2) (1 / 2)))) = mat_identity :=
  ⟨by norm_num,
   (fly_view_inverts_world Real.sqrt Real.cos Real.sin (vec3 1 2 3) (vec3 1 1 1)
      (quat (1 / 2 : ℝ) (1 / 2) (1 / 2) (1 / 2)) ⟨vec3 7 5 (17 / 10), 0, 0⟩
      (by norm_num [quat])).2.1⟩

end ViewAlgebra

/-! ### Walking view matrix -/

section Walking

lemma vec_len_axis_x (t : ℝ) : vec_len Real.sqrt (vec3 t 0 0) = |t| := by
  simp [vec_len, vec_len_sq, vec3, ← sq, Real.sqrt_sq_eq_abs]

lemma vec_len_axis_z (t : ℝ) : vec_len Real.sqrt (vec3 0 0 t) = |t| := by
  simp [vec_len, vec_len_sq, vec3, ← sq, Real.sqrt_sq_eq_abs]

/-- For an angle t that is zero or at least FLT_EPSILON in size, sin(|t|/2) * t / |t| is
sin(t/2) and cos(|t|/2) is cos(t/2). -/
lemma half_angle_signed (t : ℝ) (ht : FLT_EPSILON ≤ |t|) :
    Real.cos (|t| / 2) = Real.cos (t / 2) ∧ Real.sin (|t| / 2) * t / |t| = Real.sin (t / 2) := by
  have hpos : 0 < |t| := lt_of_lt_of_le FLT_EPSILON_pos ht
  rcases le_or_lt 0 t with h | h
  · rw [abs_of_nonneg h] at hpos ⊢
    refine ⟨rfl, ?_⟩
    field_simp
  · rw [abs_of_neg h] at hpos ⊢
    have e : -t / 2 = -(t / 2) := by ring
    rw [e, Real.cos_neg, Real.sin_neg]
    refine ⟨rfl, ?_⟩
    have hne : t ≠ 0 := ne_of_lt h
    field_simp

lemma quat_from_rot_axis_x (t : ℝ) (ht : t = 0 ∨ FLT_EPSILON ≤ |t|) :
    quat_from_rot Real.sqrt Real.cos Real.sin (vec3 t 0 0) =
      quat (Real.cos (t / 2)) (Real.sin (t / 2)) 0 0 := by
  simp only [quat_from_rot, vec_len_axis_x]
  rcases ht with h | h
  · subst h
    simp [FLT_EPSILON_pos, vec3]
  · rw [if_neg (not_lt.mpr h)]
    obtain ⟨hc, hs⟩ := half_angle_signed t h
    simp only [vec3, hc, hs]
    simp [quat]

lemma quat_from_rot_axis_z (t : ℝ) (ht : t = 0 ∨ FLT_EPSILON ≤ |t|) :
    quat_from_rot Real.sqrt Real.cos Real.sin (vec3 0 0 t) =
      quat (Real.cos (t / 2)) 0 0 (Real.sin (t / 2)) := by
  simp only [quat_from_rot, vec_len_axis_z]
  rcases ht with h | h
  · subst h
    simp [FLT_EPSILON_pos, vec3]
  · rw [if_neg (not_lt.mpr h)]
    obtain ⟨hc, hs⟩ := half_angle_signed t h
    simp only [vec3, hc, hs]
    simp [quat]

lemma cos_of_half (t : ℝ) : Real.cos t = 1 - 2 * (Real.sin (t / 2) * Real.sin (t / 2)) := by
  have h := Real.cos_two_mul (t / 2)
  have h2 := Real.cos_sq_add_sin_sq (t / 2)
  rw [show 2 * (t / 2) = t by ring] at h
  rw [h]
  nlinarith [h2]

lemma sin_of_half (t : ℝ) : Real.sin t = 2 * (Real.cos (t / 2) * Real.sin (t / 2)) := by
  have h := Real.sin_two_mul (t / 2)
  rw [show 2 * (t / 2) = t by ring] at h
  rw [h]
  ring

lemma quat_to_mat_axis_x (t : ℝ) :
    quat_to_mat (quat (Real.cos (t / 2)) (Real.sin (t / 2)) 0 0) =
      mat_rot_x Real.cos Real.sin t := by
  simp only [quat_to_mat, quat, mat_rot_x, mat4, Mat4.mk.injEq]
  rw [cos_of_half t, sin_of_half t]
  refine ⟨?_, ?_, ?_, ?_, ?_, ?_, ?_, ?_, ?_, ?_, ?_, ?_, ?_, ?_, ?_, ?_⟩ <;>
    first | trivial | ring

lemma quat_to_mat_axis_z (t : ℝ) :
    quat_to_mat (quat (Real.cos (t / 2)) 0 0 (Real.sin (t / 2))) =
      mat_rot_z Real.cos Real.sin t := by
  simp only [quat_to_mat, quat, mat_rot_z, mat4, Mat4.mk.injEq]
  rw [cos_of_half t, sin_of_half t]
  refine ⟨?_, ?_, ?_, ?_, ?_, ?_, ?_, ?_, ?_, ?_, ?_, ?_, ?_, ?_, ?_, ?_⟩ <;>
    first | trivial | ring

/-- C11: the Walking view matrix equals Rx(-pitch) * Rz(-yaw) * T(-pos), with Rx and Rz the
standard axis rotation matrices and T = mat_from_pos: for every pos, every pitch that is 0 or
at least FLT_EPSILON and every yaw that is 0 or has |yaw| >= FLT_EPSILON, the matrix
mat_mul (mat_mul (quat_to_mat (quat_from_rot (-pitch,0,0))) (quat_to_mat (quat_from_rot
(0,0,-yaw)))) (mat_from_pos (vec_neg pos)) that main builds when not flying is that product. -/
theorem walking_view_matrix (fly_camera : Transform ℝ) (pos : Vec3 ℝ) (pitch yaw : ℝ)
    (hp : pitch = 0 ∨ FLT_EPSILON ≤ pitch) (hy : yaw = 0 ∨ FLT_EPSILON ≤ |yaw|) :
    view_matrix Real.sqrt Real.cos Real.sin false fly_camera ⟨pos, pitch, yaw⟩ =
      mat_mul
        (mat_mul
          (quat_to_mat (quat_from_rot Real.sqrt Real.cos Real.sin (vec3 (-pitch) 0 0)))
          (quat_to_mat (quat_from_rot Real.sqrt Real.cos Real.sin (vec3 0 0 (-yaw)))))
        (mat_from_pos (vec_neg pos)) ∧
    mat_mul
        (mat_mul
          (quat_to_mat (quat_from_rot Real.sqrt Real.cos Real.sin (vec3 (-pitch) 0 0)))
          (quat_to_mat (quat_from_rot Real.sqrt Real.cos Real.sin (vec3 0 0 (-yaw)))))
        (mat_from_pos (vec_neg pos)) =
      mat_mul
        (mat_mul (mat_rot_x Real.cos Real.sin (-pitch)) (mat_rot_z Real.cos Real.sin (-yaw)))
        (mat_from_pos (vec_neg pos)) := by
  have hp2 : -pitch = 0 ∨ FLT_EPSILON ≤ |(-pitch)| := by
    rcases hp with h | h
    · exact Or.inl (by rw [h, neg_zero])
    · exact Or.inr (by rw [abs_neg]; exact le_trans h (le_abs_self pitch))
  have hy2 : -yaw = 0 ∨ FLT_EPSILON ≤ |(-yaw)| := by
    rcases hy with h | h
    · exact Or.inl (by rw [h, neg_zero])
    · exact Or.inr (by rw [abs_neg]; exact h)
  refine ⟨by simp [view_matrix], ?_⟩
  rw [quat_from_rot_axis_x _ hp2, quat_from_rot_axis_z _ hy2, quat_to_mat_axis_x,
    quat_to_mat_axis_z]

/-- Witness for C11 at pos = (7,5,17/10), pitch = 1 and yaw = -2. -/
theorem walking_view_matrix_witness :
    ((1 : ℝ) = 0 ∨ FLT_EPSILON ≤ (1 : ℝ)) ∧ ((-2 : ℝ) = 0 ∨ FLT_EPSILON ≤ |(-2 : ℝ)|) ∧
    view_matrix Real.sqrt Real.cos Real.sin false default_transform
        ⟨vec3 7 5 (17 / 10), 1, -2⟩ =
      mat_mul
        (mat_mul
          (quat_to_mat (quat_from_rot Real.sqrt Real.cos Real.sin (vec3 (-1) 0 0)))
          (quat_to_mat (quat_from_rot Real.sqrt Real.cos Real.sin (vec3 0 0 (-(-2))))))
        (mat_from_pos (vec_neg (vec3 7 5 (17 / 10)))) := by
  have h1 : (1 : ℝ) = 0 ∨ FLT_EPSILON ≤ (1 : ℝ) := Or.inr (by norm_num [FLT_EPSILON])
  have h2 : (-2 : ℝ) = 0 ∨ FLT_EPSILON ≤ |(-2 : ℝ)| := Or.inr (by norm_num [FLT_EPSILON])
  exact ⟨h1, h2, (walking_view_matrix default_transform (vec3 7 5 (17 / 10)) 1 (-2) h1 h2).1⟩

end Walking

/-! ### Camera updates -/

section CameraUpdates

variable {F : Type} [LinearOrderedField F]

lemma PI_pos : (0 : F) < PI := by
  unfold PI
  positivity

lemma PI_float_pos : (0 : F) < PI_float := by
  unfold PI_float
  positivity

lemma PI_lt_PI_float : (PI : F) < PI_float := by
  unfold PI PI_float
  norm_num

lemma clamp_mem (x low high : F) (h : low ≤ high) :
    low ≤ clamp x low high ∧ clamp x low high ≤ high := by
  unfold clamp
  split_ifs with h1 h2
  · exact ⟨le_refl _, h⟩
  · exact ⟨h, le_refl _⟩
  · exact ⟨not_lt.mp h1, not_lt.mp h2⟩

lemma handle_event_pitch_ok (sqrtf cosf sinf : F → F) (w : World F) (e : Event)
    (h : pitch_ok w) : pitch_ok (handle_event sqrtf cosf sinf w e) := by
  cases e with
  | mouse_motion xrel yrel =>
    simp only [handle_event, on_mouse_motion]
    split_ifs with hf
    · exact h
    · exact clamp_mem _ 0 PI_float (le_of_lt PI_float_pos)
  | key_down k => exact h
  | key_up k => cases k <;> exact h

lemma frame_update_pitch (sqrtf cosf sinf : F → F) (dt : F) (w : World F) :
    (frame_update sqrtf cosf sinf dt w).camera.pitch = w.camera.pitch := by
  simp only [frame_update, nudge_camera, move_cameras, translate_local_camera]
  split_ifs <;> rfl

lemma events_pitch_ok (sqrtf cosf sinf : F → F) (l : List Event) (w : World F)
    (h : pitch_ok w) : pitch_ok (l.foldl (handle_event sqrtf cosf sinf) w) := by
  induction l generalizing w with
  | nil => exact h
  | cons e l ih => exact ih _ (handle_event_pitch_ok sqrtf cosf sinf w e h)

lemma main_iteration_pitch_ok (sqrtf cosf sinf : F → F) (w : World F)
    (frame : List Event × F) (h : pitch_ok w) :
    pitch_ok (main_iteration sqrtf cosf sinf w frame) := by
  unfold pitch_ok main_iteration
  rw [frame_update_pitch]
  exact events_pitch_ok sqrtf cosf sinf _ _ h

lemma frames_pitch_ok (sqrtf cosf sinf : F → F) (l : List (List Event × F)) (w : World F)
    (h : pitch_ok w) : pitch_ok (l.foldl (main_iteration sqrtf cosf sinf) w) := by
  induction l generalizing w with
  | nil => exact h
  | cons fr l ih => exact ih _ (main_iteration_pitch_ok sqrtf cosf sinf w fr h)

lemma PI_le_pi : (PI : ℝ) ≤ Real.pi := by
  have h := Real.pi_gt_d20
  unfold PI
  norm_num at h ⊢
  linarith

lemma pi_lt_PI_float : Real.pi < (PI_float : ℝ) := by
  have h := Real.pi_lt_d20
  unfold PI_float
  norm_num at h ⊢
  linarith

/-- C12 as stated fails: clamp has float parameters, so the upper bound it enforces is
(float)PI = 13176795/4194304, which is above PI and above pi.  From the initial state, one
pointer motion with yrel = -100000 in Walking mode leaves pitch = (float)PI, beyond both. -/
theorem pitch_exceeds_PI :
    (handle_event Real.sqrt Real.cos Real.sin (initial_world Real.sqrt Real.cos Real.sin)
      (Event.mouse_motion 0 (-100000))).camera.pitch = PI_float ∧
    (PI : ℝ) < (handle_event Real.sqrt Real.cos Real.sin
      (initial_world Real.sqrt Real.cos Real.sin) (Event.mouse_motion 0 (-100000))).camera.pitch ∧
    Real.pi < (handle_event Real.sqrt Real.cos Real.sin
      (initial_world Real.sqrt Real.cos Real.sin) (Event.mouse_motion 0 (-100000))).camera.pitch := by
  have e : (handle_event Real.sqrt Real.cos Real.sin (initial_world Real.sqrt Real.cos Real.sin)
      (Event.mouse_motion 0 (-100000))).camera.pitch = PI_float := by
    have h1 : ¬ ((PI : ℝ) / 2 + ((-100000 : Int) : ℝ) * (-3 / 1000) < 0) := by
      norm_num [PI]
    have h2 : (PI : ℝ) / 2 + ((-100000 : Int) : ℝ) * (-3 / 1000) > PI_float := by
      norm_num [PI, PI_float]
    simp only [handle_event, on_mouse_motion, initial_world, clamp, Bool.false_eq_true,
      if_false, if_neg h1, if_pos h2]
  rw [e]
  exact ⟨rfl, PI_lt_PI_float, pi_lt_PI_float⟩

/-- C12, amended: the Walking-camera pitch never leaves [0, (float)PI], where
(float)PI = 13176795 * 2^-22 is the float nearest to PI that clamp's float parameter receives;
it lies above PI and above pi, by less than 10^-7.  Starting from the initial state of main
(pitch PI/2), after any number of iterations of the frame loop and any further events (pointer
motions with deltas of any size and sign, key presses and releases, mode toggles),
0 <= pitch <= (float)PI holds.  Each pointer motion in Walking mode sets pitch to
clamp (pitch + (-0.003) * yrel) 0 (float)PI, and a pointer motion handled in FreeFly mode leaves
the walking camera, so its pitch, unchanged. -/
theorem pitch_stays_in_range (sqrtf cosf sinf : F → F) :
    (∀ (frames : List (List Event × F)) (evs : List Event),
      0 ≤ (evs.foldl (handle_event sqrtf cosf sinf)
            (frames.foldl (main_iteration sqrtf cosf sinf)
              (initial_world sqrtf cosf sinf))).camera.pitch ∧
      (evs.foldl (handle_event sqrtf cosf sinf)
            (frames.foldl (main_iteration sqrtf cosf sinf)
              (initial_world sqrtf cosf sinf))).camera.pitch ≤ PI_float) ∧
    ((PI_float : ℝ) = 13176795 / 2 ^ 22 ∧ |(PI_float : ℝ) - PI| < 1 / 2 ^ 23 ∧
      (PI : ℝ) < PI_float ∧ Real.pi < (PI_float : ℝ) ∧ (PI_float : ℝ) - Real.pi < 1 / 10 ^ 7) ∧
    (∀ (fly_camera : Transform F) (camera : Camera F) (inputs : Inputs) (xrel yrel : Int),
      (on_mouse_motion sqrtf cosf sinf ⟨false, inputs, fly_camera, camera⟩ xrel yrel).camera.pitch
          = clamp (camera.pitch + (yrel : F) * (-3 / 1000)) 0 PI_float ∧
      (on_mouse_motion sqrtf cosf sinf ⟨true, inputs, fly_camera, camera⟩ xrel yrel).camera
          = camera) := by
  refine ⟨?_, ⟨?_, ?_, PI_lt_PI_float, pi_lt_PI_float, ?_⟩, ?_⟩
  · intro frames evs
    apply events_pitch_ok
    apply frames_pitch_ok
    have h1 := @PI_pos F _
    have h2 := @PI_lt_PI_float F _
    constructor
    · simp only [initial_world]
      exact le_of_lt (div_pos h1 (by norm_num))
    · simp only [initial_world]
      linarith
  · norm_num [PI_float]
  · rw [abs_lt]
    constructor <;> norm_num [PI_float, PI]
  · have h := Real.pi_gt_d20
    unfold PI_float
    norm_num at h ⊢
    linarith
  · intro fly_camera camera inputs xrel yrel
    simp [on_mouse_motion]

/-- C13: for a Transform t whose rotation is the identity quaternion (1,0,0,0) and every
vector v, translate_local t v sets the position to t.pos + v and leaves rot and scale
unchanged; in particular the local input (0,0,-m) decreases the world z-position by exactly m
and leaves x and y unchanged. -/
theorem translate_local_identity (t : Transform F) (v : Vec3 F) (m : F)
    (h : t.rot = quat 1 0 0 0) :
    translate_local t v = ⟨vec_add t.pos v, t.rot, t.scale⟩ ∧
    (translate_local t (vec3 0 0 (-m))).pos = vec3 t.pos.x t.pos.y (t.pos.z - m) := by
  obtain ⟨p, r, s⟩ := t
  obtain ⟨vx, vy, vz⟩ := v
  simp only at h
  subst h
  constructor
  · simp [translate_local, quat_to_mat, quat, mat_vec_mul, mat4, vec_add, vec3]
  · simp [translate_local, quat_to_mat, quat, mat_vec_mul, mat4, vec_add, vec3, sub_eq_add_neg]

/-- Witness for C13 at the default transform moved to (1,2,3), with local input (0,0,-5). -/
theorem translate_local_identity_witness :
    (⟨vec3 1 2 3, quat 1 0 0 0, vec3 1 1 1⟩ : Transform ℚ).rot = quat 1 0 0 0 ∧
    (translate_local (⟨vec3 1 2 3, quat 1 0 0 0, vec3 1 1 1⟩ : Transform ℚ)
        (vec3 0 0 (-5))).pos = vec3 1 2 (3 - 5) :=
  ⟨rfl, (translate_local_identity ⟨vec3 1 2 3, quat 1 0 0 0, vec3 1 1 1⟩ (vec3 0 0 (-5)) 5
    rfl).2⟩

lemma vec_to_circular_zero (sqrtf : F → F) :
    vec_to_circular sqrtf ⟨0, 0, 0⟩ = ⟨0, 0, 0⟩ := by
  simp only [vec_to_circular]
  split_ifs
  · rfl
  · simp [vec_scale, vec3]

/-- C20 as stated fails for the FreeFly variant: in FreeFly mode with only the X axis key held
and delta_time = 1, the frame update leaves the position of the active (free-fly) camera where
it was, so its x coordinate does not grow by delta_time; the nudge went to the walking camera. -/
theorem flying_nudge_not_applied :
    (flying_x_held : World ℝ).flying = true ∧
    active_pos (frame_update Real.sqrt Real.cos Real.sin 1 flying_x_held) =
      active_pos (flying_x_held : World ℝ) ∧
    (active_pos (frame_update Real.sqrt Real.cos Real.sin 1 flying_x_held)).x ≠
      (active_pos (flying_x_held : World ℝ)).x + 1 ∧
    (frame_update Real.sqrt Real.cos Real.sin 1 flying_x_held).camera.pos.x =
      (flying_x_held : World ℝ).camera.pos.x + 1 := by
  have h : frame_update Real.sqrt Real.cos Real.sin 1 (flying_x_held : World ℝ) =
      { (flying_x_held : World ℝ) with
        camera := { pos := vec3 (7 + 1) 5 (17 / 10), pitch := PI / 2, yaw := PI * (65 / 100) } } := by
    simp [frame_update, move_cameras, nudge_camera, flying_x_held, vec_to_circular_zero,
      translate_local, default_transform, quat_to_mat, mat_vec_mul, quat, mat4, vec_add, vec3]
  rw [h]
  simp [active_pos, flying_x_held, default_transform, vec3]

/-- C20, amended: the per-axis nudges go to the Walking camera in both modes.  In one frame
update with no movement key held, for either value of the mode flag, the Walking camera
position changes by +delta_time along each world axis whose key (X, Y, Z) is held, or by
-delta_time when the modifier key is also held, independent of heading, and nothing else in the
state changes: the FreeFly camera is not moved by the axis keys.  In every frame update the
FreeFly camera is the one the movement step produced. -/
theorem axis_nudge_moves_walking_camera (sqrtf cosf sinf : F → F) (delta_time : F) :
    (∀ (flying x y z shift : Bool) (fly_camera : Transform F) (camera : Camera F),
      frame_update sqrtf cosf sinf delta_time
          ⟨flying, ⟨false, false, false, false, x, y, z, shift⟩, fly_camera, camera⟩ =
        ⟨flying, ⟨false, false, false, false, x, y, z, shift⟩, fly_camera,
          ⟨vec3
            (camera.pos.x + (if x then (if shift then -delta_time else delta_time) else 0))
            (camera.pos.y + (if y then (if shift then -delta_time else delta_time) else 0))
            (camera.pos.z + (if z then (if shift then -delta_time else delta_time) else 0)),
            camera.pitch, camera.yaw⟩⟩) ∧
    (∀ w : World F,
      (frame_update sqrtf cosf sinf delta_time w).fly_camera =
        (move_cameras sqrtf cosf sinf delta_time w).fly_camera) := by
  refine ⟨?_, fun w => rfl⟩
  intro flying x y z shift fly_camera camera
  obtain ⟨⟨px, py, pz⟩, r, s⟩ := fly_camera
  obtain ⟨⟨cx, cy, cz⟩, pitch, yaw⟩ := camera
  cases flying <;> cases x <;> cases y <;> cases z <;> cases shift <;>
    simp [frame_update, move_cameras, nudge_camera, vec_to_circular_zero, translate_local,
      translate_local_camera, mat_vec_mul, vec_add, vec3, sub_eq_add_neg]

end CameraUpdates

/-! ### OBJ loader: face-vertex tokens -/

section SetVert

variable {F : Type} [LinearOrderedField F]

omit [LinearOrderedField F] in
lemma window8 (f : List F) (hf : f.length = 8) :
    ∃ a0 a1 a2 a3 a4 a5 a6 a7, f = [a0, a1, a2, a3, a4, a5, a6, a7] := by
  rcases f with _ | ⟨a0, _ | ⟨a1, _ | ⟨a2, _ | ⟨a3, _ | ⟨a4, _ | ⟨a5, _ | ⟨a6, _ | ⟨a7, _ | ⟨a8, l⟩⟩⟩⟩⟩⟩⟩⟩⟩ <;>
    simp at hf
  exact ⟨a0, a1, a2, a3, a4, a5, a6, a7, rfl⟩

lemma to_size_t_out_of_range (k : Int) (n : Nat) (h1 : -2 ^ 31 ≤ k) (h2 : k < 2 ^ 31)
    (hn : n < 2 ^ 63) (h : k < 1 ∨ (n : Int) < k) : ¬ (to_size_t (k - 1) < n) := by
  unfold to_size_t
  omega

lemma atoi_range (str : List Char) : -2 ^ 31 ≤ atoi str ∧ atoi str < 2 ^ 31 := by
  unfold atoi to_int
  omega

/-- When the `int` that `atoi` yields for the token lies outside 1..n_verts, set_vert writes
zeros into the position fields and does not use the position list. -/
lemma set_vert_position_zero (f : List F) (str : List Char) (verts : List F)
    (n_verts : Nat) (texs : List F) (n_texs : Nat) (norms : List F) (n_norms : Nat)
    (hf : f.length = 8) (hn : n_verts < 2 ^ 63)
    (hout : atoi str < 1 ∨ (n_verts : Int) < atoi str) :
    (set_vert f str verts n_verts texs n_texs norms n_norms).take 3 = [0, 0, 0] ∧
    (∀ verts2 : List F,
      set_vert f str verts2 n_verts texs n_texs norms n_norms =
        set_vert f str verts n_verts texs n_texs norms n_norms) := by
  have hi := to_size_t_out_of_range (atoi str) n_verts (atoi_range str).1 (atoi_range str).2
    hn hout
  obtain ⟨a0, a1, a2, a3, a4, a5, a6, a7, rfl⟩ := window8 f hf
  refine ⟨?_, ?_⟩
  · simp only [set_vert, if_neg hi]
    rcases after_char str '/' with _ | s1
    · simp
    · dsimp only
      rcases after_char s1 '/' with _ | s2
      · by_cases ht : to_size_t (atoi s1 - 1) < n_texs <;> simp [ht]
      · by_cases ht : to_size_t (atoi s1 - 1) < n_texs <;>
          by_cases hn2 : to_size_t (atoi s2 - 1) < n_norms <;> simp [ht, hn2]
  · intro verts2
    simp only [set_vert, if_neg hi]

lemma isDigit_ne (c d : Char) (hc : c.isDigit = true) (hd : d.isDigit = false) : c ≠ d := by
  intro e
  rw [e, hd] at hc
  exact Bool.false_ne_true hc

lemma isDigit_not_space (c : Char) (hc : c.isDigit = true) : isspace c = false := by
  have h1 := isDigit_ne c ' ' hc (by decide)
  have h2 := isDigit_ne c '\t' hc (by decide)
  have h3 := isDigit_ne c '\n' hc (by decide)
  have h4 := isDigit_ne c (Char.ofNat 11) hc (by decide)
  have h5 := isDigit_ne c (Char.ofNat 12) hc (by decide)
  have h6 := isDigit_ne c '\r' hc (by decide)
  simp [isspace, h1, h2, h3, h4, h5, h6]

end SetVert

/-! ### OBJ loader: the line scan -/

section Loader

variable {F : Type} [LinearOrderedField F]

lemma obj_loop_nil (sqrtf : F → F) (atof : List Char → F) (junk : Nat → F) (st : ObjState F) :
    obj_loop sqrtf atof junk [] st = st := by
  rw [obj_loop]

lemma obj_loop_cons (sqrtf : F → F) (atof : List Char → F) (junk : Nat → F) (ch : Char)
    (cs : List Char) (st : ObjState F) :
    obj_loop sqrtf atof junk (ch :: cs) st =
      obj_loop sqrtf atof junk (next_line (ch :: cs))
        (obj_record sqrtf atof junk (ch :: cs) st) := by
  rw [obj_loop]

lemma next_line_length_lt (ch : Char) (cs : List Char) :
    (next_line (ch :: cs)).length < (ch :: cs).length := by
  simp only [next_line, List.length_cons]
  by_cases h : ch = '\n'
  · subst h
    simp only [List.dropWhile_cons, bne_self_eq_false, Bool.false_eq_true, if_false,
      beq_self_eq_true, if_true]
    exact Nat.lt_succ_of_le (List.dropWhile_sublist _).length_le
  · have h1 : (ch != '\n') = true := by simpa using h
    simp only [List.dropWhile_cons, h1, if_true]
    exact Nat.lt_succ_of_le
      (le_trans (List.dropWhile_sublist _).length_le (List.dropWhile_sublist _).length_le)

lemma obj_face_counts (sqrtf : F → F) (junk : Nat → F) (a1 a2 a3 : List Char)
    (st : ObjState F) :
    (obj_face sqrtf junk a1 a2 a3 st).n_faces = st.n_faces + 1 := by
  simp only [obj_face]
  split_ifs <;> rfl

lemma set_vert_length (f : List F) (str : List Char) (verts : List F) (n_verts : Nat)
    (texs : List F) (n_texs : Nat) (norms : List F) (n_norms : Nat) :
    (set_vert f str verts n_verts texs n_texs norms n_norms).length = f.length := by
  simp only [set_vert]
  rcases after_char str '/' with _ | s1
  · split_ifs <;> simp
  · dsimp only
    rcases after_char s1 '/' with _ | s2
    · split_ifs <;> simp
    · dsimp only
      split_ifs <;> simp

lemma obj_face_length (sqrtf : F → F) (junk : Nat → F) (a1 a2 a3 : List Char)
    (st : ObjState F) :
    (obj_face sqrtf junk a1 a2 a3 st).faces.length = st.faces.length + 24 := by
  simp only [obj_face]
  split_ifs <;> simp [set_vert_length, fresh8]

lemma obj_record_face (sqrtf : F → F) (atof : List Char → F) (junk : Nat → F)
    (c a1 a2 a3 : List Char) (st : ObjState F) (hc : c.head? ≠ some '#')
    (hs : sscanf4 c = (['f'], a1, a2, a3)) :
    obj_record sqrtf atof junk c st = obj_face sqrtf junk a1 a2 a3 st := by
  simp [obj_record, hc, hs]

lemma obj_record_v (sqrtf : F → F) (atof : List Char → F) (junk : Nat → F)
    (c a1 a2 a3 : List Char) (st : ObjState F) (hc : c.head? ≠ some '#')
    (hs : sscanf4 c = (['v'], a1, a2, a3)) :
    obj_record sqrtf atof junk c st =
      { st with verts := st.verts ++ [atof a1, atof a2, atof a3], n_verts := st.n_verts + 1 } := by
  simp [obj_record, hc, hs]

lemma obj_record_faces_length (sqrtf : F → F) (atof : List Char → F) (junk : Nat → F)
    (c : List Char) (st : ObjState F) (h : st.faces.length = 24 * st.n_faces) :
    (obj_record sqrtf atof junk c st).faces.length =
      24 * (obj_record sqrtf atof junk c st).n_faces := by
  simp only [obj_record]
  split_ifs
  · exact h
  · exact h
  · exact h
  · exact h
  · rw [obj_face_length, obj_face_counts, h]
    ring
  · exact h

lemma obj_loop_faces_length (sqrtf : F → F) (atof : List Char → F) (junk : Nat → F) :
    ∀ (n : Nat) (c : List Char) (st : ObjState F), c.length ≤ n →
      st.faces.length = 24 * st.n_faces →
      (obj_loop sqrtf atof junk c st).faces.length =
        24 * (obj_loop sqrtf atof junk c st).n_faces := by
  intro n
  induction n with
  | zero =>
    intro c st hc h
    have : c = [] := List.length_eq_zero.mp (Nat.le_zero.mp hc)
    rw [this, obj_loop_nil]
    exact h
  | succ n ih =>
    intro c st hc h
    cases c with
    | nil =>
      rw [obj_loop_nil]
      exact h
    | cons ch cs =>
      rw [obj_loop_cons]
      apply ih
      · have := next_line_length_lt ch cs
        omega
      · exact obj_record_faces_length sqrtf atof junk _ st h

/-- C16 fails on the code: the normal branch of set_vert has no else.  For the token 1/1/5
with one declared position, one declared texcoord and no declared normal, the three normal
fields keep what the window held before (7,7,7), whereas an out-of-range texcoord index (token
1/5) and an out-of-range position index (token 5) are zero-filled.  Accordingly the file with
the single line `f 1/1/1 1/1/1 1/1/1` and no declarations loads with zero positions and
texcoords but with normal fields holding whatever the fresh buffer held (here 7). -/
theorem set_vert_normal_out_of_range_not_zeroed :
    set_vert [9, 9, 9, 9, 9, 7, 7, 7] ['1', '/', '1', '/', '5'] [1, 2, 3] 1 [4, 5] 1
        ([] : List ℚ) 0 = [1, 2, 3, 4, 5, 7, 7, 7] ∧
    set_vert [9, 9, 9, 9, 9, 7, 7, 7] ['1', '/', '5'] [1, 2, 3] 1 [4, 5] 1
        ([] : List ℚ) 0 = [1, 2, 3, 0, 0, 0, 0, 0] ∧
    set_vert [9, 9, 9, 9, 9, 7, 7, 7] ['5'] [1, 2, 3] 1 [4, 5] 1
        ([] : List ℚ) 0 = [0, 0, 0, 0, 0, 0, 0, 0] ∧
    read_obj_file (fun x : ℚ => x) atof_int (fun _ => 7)
      (some (obj_line ['f'] ['1', '/', '1', '/', '1'] ['1', '/', '1', '/', '1']
        ['1', '/', '1', '/', '1'])) =
      (true, [0, 0, 0, 0, 0, 7, 7, 7, 0, 0, 0, 0, 0, 7, 7, 7, 0, 0, 0, 0, 0, 7, 7, 7], 1) := by
  have n1 : next_line (obj_line ['f'] ['1', '/', '1', '/', '1'] ['1', '/', '1', '/', '1']
        ['1', '/', '1', '/', '1']) = [] := by decide
  have s1 : sscanf4 (obj_line ['f'] ['1', '/', '1', '/', '1'] ['1', '/', '1', '/', '1']
        ['1', '/', '1', '/', '1']) =
      (['f'], ['1', '/', '1', '/', '1'], ['1', '/', '1', '/', '1'],
        ['1', '/', '1', '/', '1']) := by decide
  have e : obj_line ['f'] ['1', '/', '1', '/', '1'] ['1', '/', '1', '/', '1']
        ['1', '/', '1', '/', '1'] =
      'f' :: (' ' :: (['1', '/', '1', '/', '1'] ++ ' ' :: (['1', '/', '1', '/', '1'] ++
        ' ' :: (['1', '/', '1', '/', '1'] ++ ['\n'])))) := rfl
  have run : obj_loop (fun x : ℚ => x) atof_int (fun _ => 7)
      (obj_line ['f'] ['1', '/', '1', '/', '1'] ['1', '/', '1', '/', '1']
        ['1', '/', '1', '/', '1']) ⟨[], 0, [], 0, [], 0, [], 0⟩ =
      obj_face (fun x : ℚ => x) (fun _ => 7) ['1', '/', '1', '/', '1']
        ['1', '/', '1', '/', '1'] ['1', '/', '1', '/', '1'] ⟨[], 0, [], 0, [], 0, [], 0⟩ := by
    have h := obj_loop_cons (fun x : ℚ => x) atof_int (fun _ => 7) 'f'
      (' ' :: (['1', '/', '1', '/', '1'] ++ ' ' :: (['1', '/', '1', '/', '1'] ++
        ' ' :: (['1', '/', '1', '/', '1'] ++ ['\n'])))) ⟨[], 0, [], 0, [], 0, [], 0⟩
    rw [← e] at h
    rw [h, n1, obj_record_face _ atof_int _ _ _ _ _ _ (by decide) s1, obj_loop_nil]
  refine ⟨by decide, by decide, by decide, ?_⟩
  simp only [read_obj_file, run]
  decide

/-- C18 fails on the code.  The buffer does hold 24 floats per counted face for every text,
but `sscanf` skips white space, newlines included, so the tokens of a record are scanned once
more from an empty or blank line in front of it: the text of an empty line followed by the line
`f 1 2 3` has one line with keyword f, yet the loader counts two faces (48 floats). -/
theorem blank_line_duplicates_face (sqrtf : F → F) (atof : List Char → F) (junk : Nat → F) :
    (∀ content : List Char,
      (read_obj_file sqrtf atof junk (some content)).2.1.length =
        24 * (read_obj_file sqrtf atof junk (some content)).2.2) ∧
    f_line_count ['\n', 'f', ' ', '1', ' ', '2', ' ', '3', '\n'] = 1 ∧
    (read_obj_file sqrtf atof junk
      (some ['\n', 'f', ' ', '1', ' ', '2', ' ', '3', '\n'])).2.2 = 2 ∧
    (read_obj_file sqrtf atof junk
      (some ['\n', 'f', ' ', '1', ' ', '2', ' ', '3', '\n'])).2.1.length = 48 := by
  have n1 : next_line ['\n', 'f', ' ', '1', ' ', '2', ' ', '3', '\n'] =
      ['f', ' ', '1', ' ', '2', ' ', '3', '\n'] := by decide
  have n2 : next_line ['f', ' ', '1', ' ', '2', ' ', '3', '\n'] = [] := by decide
  have s1 : sscanf4 ['\n', 'f', ' ', '1', ' ', '2', ' ', '3', '\n'] =
      (['f'], ['1'], ['2'], ['3']) := by decide
  have s2 : sscanf4 ['f', ' ', '1', ' ', '2', ' ', '3', '\n'] =
      (['f'], ['1'], ['2'], ['3']) := by decide
  have run : obj_loop sqrtf atof junk ['\n', 'f', ' ', '1', ' ', '2', ' ', '3', '\n']
      ⟨[], 0, [], 0, [], 0, [], 0⟩ =
      obj_face sqrtf junk ['1'] ['2'] ['3']
        (obj_face sqrtf junk ['1'] ['2'] ['3'] ⟨[], 0, [], 0, [], 0, [], 0⟩) := by
    rw [obj_loop_cons, n1, obj_record_face sqrtf atof junk _ _ _ _ _ (by decide) s1,
      obj_loop_cons, n2, obj_record_face sqrtf atof junk _ _ _ _ _ (by decide) s2, obj_loop_nil]
  refine ⟨?_, by decide, ?_, ?_⟩
  · intro content
    exact obj_loop_faces_length sqrtf atof junk content.length content _ (le_refl _) rfl
  · simp only [read_obj_file, run, obj_face_counts]
  · simp only [read_obj_file, run, obj_face_length]
    rfl

/-- C19: read_obj_file reports failure exactly when the asset file cannot be read, and then
the result is empty (no faces, n_faces = 0); for every readable text content, however
malformed, the loader reports success, and the line scan terminates: it is the loop that ends
on the empty rest and otherwise handles the record at the line start and continues from the
next line start, which is at least one character further. -/
theorem read_obj_file_status (sqrtf : F → F) (atof : List Char → F) (junk : Nat → F) :
    read_obj_file sqrtf atof junk none = (false, [], 0) ∧
    (∀ content : List Char, (read_obj_file sqrtf atof junk (some content)).1 = true) ∧
    (∀ r : Option (List Char), (read_obj_file sqrtf atof junk r).1 = false ↔ r = none) ∧
    (∀ st : ObjState F, obj_loop sqrtf atof junk [] st = st) ∧
    (∀ (ch : Char) (cs : List Char) (st : ObjState F),
      obj_loop sqrtf atof junk (ch :: cs) st =
        obj_loop sqrtf atof junk (next_line (ch :: cs))
          (obj_record sqrtf atof junk (ch :: cs) st)) ∧
    (∀ (ch : Char) (cs : List Char), (next_line (ch :: cs)).length < (ch :: cs).length) := by
  refine ⟨rfl, fun _ => rfl, ?_, obj_loop_nil sqrtf atof junk, obj_loop_cons sqrtf atof junk,
    next_line_length_lt⟩
  intro r
  cases r with
  | none => simp [read_obj_file]
  | some c => simp [read_obj_file]

end Loader

/-! ### OBJ loader: the minimal triangle -/

section Minimal

variable {F : Type} [LinearOrderedField F]

lemma dropWhile_isspace_token (t : List Char) (ht : is_token t) (r : List Char) :
    (t ++ r).dropWhile isspace = t ++ r := by
  obtain ⟨hne, hns⟩ := ht
  cases t with
  | nil => exact absurd rfl hne
  | cons c t =>
    have hc : isspace c = false := hns c (List.mem_cons_self _ _)
    simp [List.dropWhile_cons, hc]

lemma takeWhile_not_space (t : List Char) (hns : ∀ c ∈ t, isspace c = false) (x : Char)
    (hx : isspace x = true) (r : List Char) :
    (t ++ x :: r).takeWhile (fun c => !isspace c) = t := by
  induction t with
  | nil => simp [List.takeWhile_cons, hx]
  | cons c t ih =>
    have hc : isspace c = false := hns c (List.mem_cons_self _ _)
    simp only [List.cons_append, List.takeWhile_cons, hc, Bool.not_false, if_true]
    rw [ih (fun d hd => hns d (List.mem_cons_of_mem _ hd))]

lemma scan_s_token (w : Nat) (t : List Char) (x : Char) (r : List Char) (ht : is_token t)
    (hw : t.length ≤ w) (hx : isspace x = true) :
    scan_s w (t ++ x :: r) = (t, x :: r) := by
  simp only [scan_s, dropWhile_isspace_token t ht, takeWhile_not_space t ht.2 x hx,
    List.take_of_length_le hw, List.drop_left]

lemma scan_s_space (w : Nat) (x : Char) (s : List Char) (hx : isspace x = true) :
    scan_s w (x :: s) = scan_s w s := by
  simp [scan_s, List.dropWhile_cons, hx]

lemma sscanf4_obj_line (k a b c rest : List Char) (hk : is_token k) (hkw : k.length ≤ 7)
    (ha : is_token a) (haw : a.length ≤ 15) (hb : is_token b) (hbw : b.length ≤ 15)
    (hc : is_token c) (hcw : c.length ≤ 15) :
    sscanf4 (obj_line k a b c ++ rest) = (k, a, b, c) := by
  have sp : isspace ' ' = true := by decide
  have nl : isspace '\n' = true := by decide
  have e : obj_line k a b c ++ rest =
      k ++ ' ' :: (a ++ ' ' :: (b ++ ' ' :: (c ++ '\n' :: rest))) := by
    simp [obj_line]
  simp only [sscanf4, e, scan_s_token 7 k ' ' _ hk hkw sp, scan_s_space 15 ' ' _ sp,
    scan_s_token 15 a ' ' _ ha haw sp, scan_s_token 15 b ' ' _ hb hbw sp,
    scan_s_token 15 c '\n' _ hc hcw nl]

lemma dropWhile_to_newline (l : List Char) (hl : ∀ x ∈ l, x ≠ '\n') (rest : List Char) :
    (l ++ '\n' :: rest).dropWhile (fun ch => ch != '\n') = '\n' :: rest := by
  induction l with
  | nil => simp
  | cons c l ih =>
    have hc : c ≠ '\n' := hl c (List.mem_cons_self _ _)
    have hb : (c != '\n') = true := by simpa using hc
    simp only [List.cons_append, List.dropWhile_cons, hb, if_true]
    exact ih (fun d hd => hl d (List.mem_cons_of_mem _ hd))

lemma token_no_newline (t : List Char) (ht : is_token t) : ∀ x ∈ t, x ≠ '\n' := by
  intro x hx e
  have h := ht.2 x hx
  rw [e] at h
  exact absurd h (by decide)

lemma next_line_obj_line (k a b c rest : List Char) (hk : is_token k) (ha : is_token a)
    (hb : is_token b) (hc : is_token c) (hr : rest.head? ≠ some '\n') :
    next_line (obj_line k a b c ++ rest) = rest := by
  have e : obj_line k a b c ++ rest =
      (k ++ ' ' :: (a ++ ' ' :: (b ++ ' ' :: c))) ++ '\n' :: rest := by
    simp [obj_line]
  have hl : ∀ x ∈ k ++ ' ' :: (a ++ ' ' :: (b ++ ' ' :: c)), x ≠ '\n' := by
    intro x hx
    simp only [List.mem_append, List.mem_cons] at hx
    rcases hx with h | h | h | h | h | h | h
    · exact token_no_newline k hk x h
    · rw [h]; decide
    · exact token_no_newline a ha x h
    · rw [h]; decide
    · exact token_no_newline b hb x h
    · rw [h]; decide
    · exact token_no_newline c hc x h
  rw [next_line, e, dropWhile_to_newline _ hl]
  cases rest with
  | nil => simp
  | cons r rs =>
    have hne : r ≠ '\n' := by
      intro h
      exact hr (by rw [h]; rfl)
    simp [List.dropWhile_cons, hne]

lemma obj_line_head (k a b c rest : List Char) (hk : k ≠ []) :
    (obj_line k a b c ++ rest).head? = k.head? := by
  cases k with
  | nil => exact absurd rfl hk
  | cons x k => simp [obj_line]

lemma obj_loop_obj_line (sqrtf : F → F) (atof : List Char → F) (junk : Nat → F)
    (k a b c rest : List Char) (st : ObjState F) (hk : is_token k) (ha : is_token a)
    (hb : is_token b) (hc : is_token c) (hr : rest.head? ≠ some '\n') :
    obj_loop sqrtf atof junk (obj_line k a b c ++ rest) st =
      obj_loop sqrtf atof junk rest
        (obj_record sqrtf atof junk (obj_line k a b c ++ rest) st) := by
  have hne : obj_line k a b c ++ rest ≠ [] := by
    intro h
    have := obj_line_head k a b c rest hk.1
    rw [h] at this
    cases k with
    | nil => exact hk.1 rfl
    | cons x k => simp at this
  obtain ⟨ch, cs, hcs⟩ := List.exists_cons_of_ne_nil hne
  have step := obj_loop_cons sqrtf atof junk ch cs st
  rw [← hcs] at step
  rw [step, next_line_obj_line k a b c rest hk ha hb hc hr]

lemma is_token_digit (d : Char) (hd : d.isDigit = true) : is_token [d] := by
  refine ⟨by simp, ?_⟩
  intro c hc
  rw [List.mem_singleton] at hc
  rw [hc]
  exact isDigit_not_space d hd

end Minimal

/-! ### Unit norm of the free-fly orientation -/

section UnitNorm

lemma quat_norm_sq_mul {F : Type} [LinearOrderedField F] (a b : Quat F) :
    quat_norm_sq (quat_mul a b) = quat_norm_sq a * quat_norm_sq b := by
  simp only [quat_norm_sq, quat_mul, quat]
  ring

lemma quat_norm_sq_nonneg (q : Quat ℝ) : 0 ≤ quat_norm_sq q := by
  unfold quat_norm_sq
  positivity

lemma quat_from_rot_norm_sq (v : Vec3 ℝ) :
    quat_norm_sq (quat_from_rot Real.sqrt Real.cos Real.sin v) = 1 := by
  simp only [quat_from_rot]
  split_ifs with h
  · simp [quat_norm_sq, quat]
  · have ha : 0 < vec_len Real.sqrt v := lt_of_lt_of_le FLT_EPSILON_pos (not_lt.mp h)
    have hne : vec_len Real.sqrt v ≠ 0 := ne_of_gt ha
    have hsq := vec_len_mul_self v
    simp only [vec_len_sq] at hsq
    have hcs := Real.cos_sq_add_sin_sq (vec_len Real.sqrt v / 2)
    simp only [quat_norm_sq, quat]
    field_simp
    linear_combination (vec_len Real.sqrt v ^ 2) * hcs -
      (Real.sin (vec_len Real.sqrt v / 2) ^ 2) * hsq

lemma quat_mul_from_rot_ok (q : Quat ℝ) (v : Vec3 ℝ) (h : quat_norm_sq q = 1) :
    quat_norm_sq (quat_mul q (quat_from_rot Real.sqrt Real.cos Real.sin v)) = 1 := by
  rw [quat_norm_sq_mul, h, quat_from_rot_norm_sq, one_mul]

lemma handle_event_rot_ok (w : World ℝ) (e : Event) (h : rot_ok w) :
    rot_ok (handle_event Real.sqrt Real.cos Real.sin w e) := by
  cases e with
  | mouse_motion xrel yrel =>
    simp only [handle_event, on_mouse_motion]
    split_ifs with hf
    · exact quat_mul_from_rot_ok _ _ h
    · exact h
  | key_down k => exact h
  | key_up k => cases k <;> exact h

lemma frame_update_rot_ok (dt : ℝ) (w : World ℝ) (h : rot_ok w) :
    rot_ok (frame_update Real.sqrt Real.cos Real.sin dt w) := by
  unfold rot_ok at h ⊢
  simp only [frame_update, move_cameras, translate_local]
  split_ifs <;>
    first
    | exact h
    | exact quat_mul_from_rot_ok _ _ h
    | exact quat_mul_from_rot_ok _ _ (quat_mul_from_rot_ok _ _ h)

lemma events_rot_ok (evs : List Event) (w : World ℝ) (h : rot_ok w) :
    rot_ok (evs.foldl (handle_event Real.sqrt Real.cos Real.sin) w) := by
  induction evs generalizing w with
  | nil => exact h
  | cons e l ih => exact ih _ (handle_event_rot_ok w e h)

lemma frames_rot_ok (frames : List (List Event × ℝ)) (w : World ℝ) (h : rot_ok w) :
    rot_ok (frames.foldl (main_iteration Real.sqrt Real.cos Real.sin) w) := by
  induction frames generalizing w with
  | nil => exact h
  | cons fr l ih =>
    apply ih
    unfold main_iteration
    exact frame_update_rot_ok _ _ (events_rot_ok _ _ h)

/-- C21: the FreeFly orientation remains unit-norm across composition, in exact real
arithmetic.  quat_from_rot v has norm 1 for every v (the identity branch below FLT_EPSILON and
the axis-angle branch), the norm of quat_mul a b is the product of the norms of a and b, and
starting from the initial orientation quat_from_rot (0.2*PI, 0, 0), after any number of
iterations of the frame loop and any further events, with pointer-motion updates
rot := quat_mul rot (quat_from_rot (-0.003*yrel, -0.003*xrel, 0)) and roll updates
rot := quat_mul rot (quat_from_rot (0, 0, +-0.03)), w^2 + x^2 + y^2 + z^2 = 1. -/
theorem fly_rot_unit_norm :
    (∀ v : Vec3 ℝ,
      quat_norm_sq (quat_from_rot Real.sqrt Real.cos Real.sin v) = 1 ∧
      quat_norm Real.sqrt (quat_from_rot Real.sqrt Real.cos Real.sin v) = 1) ∧
    (∀ a b : Quat ℝ,
      quat_norm_sq (quat_mul a b) = quat_norm_sq a * quat_norm_sq b ∧
      quat_norm Real.sqrt (quat_mul a b) = quat_norm Real.sqrt a * quat_norm Real.sqrt b) ∧
    (initial_world Real.sqrt Real.cos Real.sin).fly_camera.rot =
      quat_from_rot Real.sqrt Real.cos Real.sin (vec3 (PI * (2 / 10)) 0 0) ∧
    (∀ (frames : List (List Event × ℝ)) (evs : List Event),
      ((evs.foldl (handle_event Real.sqrt Real.cos Real.sin)
        (frames.foldl (main_iteration Real.sqrt Real.cos Real.sin)
          (initial_world Real.sqrt Real.cos Real.sin))).fly_camera.rot.w ^ 2 +
       (evs.foldl (handle_event Real.sqrt Real.cos Real.sin)
        (frames.foldl (main_iteration Real.sqrt Real.cos Real.sin)
          (initial_world Real.sqrt Real.cos Real.sin))).fly_camera.rot.x ^ 2 +
       (evs.foldl (handle_event Real.sqrt Real.cos Real.sin)
        (frames.foldl (main_iteration Real.sqrt Real.cos Real.sin)
          (initial_world Real.sqrt Real.cos Real.sin))).fly_camera.rot.y ^ 2 +
       (evs.foldl (handle_event Real.sqrt Real.cos Real.sin)
        (frames.foldl (main_iteration Real.sqrt Real.cos Real.sin)
          (initial_world Real.sqrt Real.cos Real.sin))).fly_camera.rot.z ^ 2 = 1)) ∧
    (∀ (inputs : Inputs) (fly_camera : Transform ℝ) (camera : Camera ℝ) (xrel yrel : Int),
      (on_mouse_motion Real.sqrt Real.cos Real.sin ⟨true, inputs, fly_camera, camera⟩
          xrel yrel).fly_camera.rot =
        quat_mul fly_camera.rot (quat_from_rot Real.sqrt Real.cos Real.sin
          (vec3 ((yrel : ℝ) * (-3 / 1000)) ((xrel : ℝ) * (-3 / 1000)) 0))) ∧
    (∀ (delta_time : ℝ) (fw bw x y z shift : Bool) (fly_camera : Transform ℝ)
        (camera : Camera ℝ),
      (frame_update Real.sqrt Real.cos Real.sin delta_time
          ⟨true, ⟨fw, bw, true, false, x, y, z, shift⟩, fly_camera, camera⟩).fly_camera.rot =
        quat_mul fly_camera.rot
          (quat_from_rot Real.sqrt Real.cos Real.sin (vec3 0 0 (3 / 100))) ∧
      (frame_update Real.sqrt Real.cos Real.sin delta_time
          ⟨true, ⟨fw, bw, false, true, x, y, z, shift⟩, fly_camera, camera⟩).fly_camera.rot =
        quat_mul fly_camera.rot
          (quat_from_rot Real.sqrt Real.cos Real.sin (vec3 0 0 (-(3 / 100))))) := by
  refine ⟨?_, ?_, rfl, ?_, ?_, ?_⟩
  · intro v
    refine ⟨quat_from_rot_norm_sq v, ?_⟩
    unfold quat_norm
    rw [quat_from_rot_norm_sq, Real.sqrt_one]
  · intro a b
    refine ⟨quat_norm_sq_mul a b, ?_⟩
    unfold quat_norm
    rw [quat_norm_sq_mul, Real.sqrt_mul (quat_norm_sq_nonneg a)]
  · intro frames evs
    have h := events_rot_ok evs _ (frames_rot_ok frames
      (initial_world Real.sqrt Real.cos Real.sin) (quat_from_rot_norm_sq _))
    exact h
  · intro inputs fly_camera camera xrel yrel
    simp [on_mouse_motion]
  · intro delta_time fw bw x y z shift fly_camera camera
    constructor <;> simp [frame_update, move_cameras, translate_local]

end UnitNorm

/-! ### Composition and vector transform -/

section Composition

variable {F : Type} [LinearOrderedField F]

/-- C22: quat_to_mat turns quaternion composition into matrix composition in the same order:
for all unit quaternions a and b, quat_to_mat (quat_mul a b) =
mat_mul (quat_to_mat a) (quat_to_mat b). -/
theorem quat_to_mat_mul (a b : Quat F)
    (ha : a.w ^ 2 + a.x ^ 2 + a.y ^ 2 + a.z ^ 2 = 1)
    (hb : b.w ^ 2 + b.x ^ 2 + b.y ^ 2 + b.z ^ 2 = 1) :
    quat_to_mat (quat_mul a b) = mat_mul (quat_to_mat a) (quat_to_mat b) := by
  obtain ⟨aw, ax, ay, az⟩ := a
  obtain ⟨bw, bx, by_, bz⟩ := b
  simp only at ha hb
  simp only [quat_to_mat, quat_mul, quat, mat_mul, mat4, Mat4.mk.injEq]
  refine ⟨?_, ?_, ?_, ?_, ?_, ?_, ?_, ?_, ?_, ?_, ?_, ?_, ?_, ?_, ?_, ?_⟩
  · linear_combination
      ((1 - 2 * (bw ^ 2 + bx ^ 2 + by_ ^ 2 + bz ^ 2)) + (bw ^ 2 + bx ^ 2 - by_ ^ 2 - bz ^ 2)) * ha
        + ((aw ^ 2 + ax ^ 2 - ay ^ 2 - az ^ 2) - 1) * hb
  · linear_combination (2 * (bx * by_ - bw * bz)) * ha + (2 * (ax * ay - aw * az)) * hb
  · linear_combination (2 * (bw * by_ + bx * bz)) * ha + (2 * (aw * ay + ax * az)) * hb
  · ring
  · linear_combination (2 * (bx * by_ + bw * bz)) * ha + (2 * (ax * ay + aw * az)) * hb
  · linear_combination
      ((1 - 2 * (bw ^ 2 + bx ^ 2 + by_ ^ 2 + bz ^ 2)) + (bw ^ 2 - bx ^ 2 + by_ ^ 2 - bz ^ 2)) * ha
        + ((aw ^ 2 - ax ^ 2 + ay ^ 2 - az ^ 2) - 1) * hb
  · linear_combination (2 * (by_ * bz - bw * bx)) * ha + (2 * (ay * az - aw * ax)) * hb
  · ring
  · linear_combination (2 * (bx * bz - bw * by_)) * ha + (2 * (ax * az - aw * ay)) * hb
  · linear_combination (2 * (bw * bx + by_ * bz)) * ha + (2 * (aw * ax + ay * az)) * hb
  · linear_combination
      ((1 - 2 * (bw ^ 2 + bx ^ 2 + by_ ^ 2 + bz ^ 2)) + (bw ^ 2 - bx ^ 2 - by_ ^ 2 + bz ^ 2)) * ha
        + ((aw ^ 2 - ax ^ 2 - ay ^ 2 + az ^ 2) - 1) * hb
  · ring
  · ring
  · ring
  · ring
  · ring

/-- Witness for C22 at the rational unit quaternions (3/5, 4/5, 0, 0) and (1/2, 1/2, 1/2, 1/2). -/
theorem quat_to_mat_mul_witness :
    ((3 / 5 : ℚ) ^ 2 + (4 / 5) ^ 2 + 0 ^ 2 + 0 ^ 2 = 1) ∧
    ((1 / 2 : ℚ) ^ 2 + (1 / 2) ^ 2 + (1 / 2) ^ 2 + (1 / 2) ^ 2 = 1) ∧
    quat_to_mat (quat_mul (quat (3 / 5 : ℚ) (4 / 5) 0 0) (quat (1 / 2) (1 / 2) (1 / 2) (1 / 2))) =
      mat_mul (quat_to_mat (quat (3 / 5 : ℚ) (4 / 5) 0 0))
        (quat_to_mat (quat (1 / 2) (1 / 2) (1 / 2) (1 / 2))) :=
  ⟨by norm_num, by norm_num,
   quat_to_mat_mul (quat (3 / 5 : ℚ) (4 / 5) 0 0) (quat (1 / 2) (1 / 2) (1 / 2) (1 / 2))
     (by norm_num [quat]) (by norm_num [quat])⟩

/-- C23: mat_vec_mul ignores the homogeneous w.  Its result depends only on the upper-left
3x3 block of the matrix; so for every position p and vector v,
mat_vec_mul (mat_from_pos p) v = v, and for every matrix M whose bottom row is (0,0,0,1),
mat_vec_mul (mat_mul (mat_from_pos p) M) v = mat_vec_mul M v. -/
theorem mat_vec_mul_ignores_w (p v : Vec3 F) (M : Mat4 F)
    (hM : M.wx = 0 ∧ M.wy = 0 ∧ M.wz = 0 ∧ M.ww = 1) :
    (∀ A B : Mat4 F,
      A.xx = B.xx ∧ A.xy = B.xy ∧ A.xz = B.xz ∧
      A.yx = B.yx ∧ A.yy = B.yy ∧ A.yz = B.yz ∧
      A.zx = B.zx ∧ A.zy = B.zy ∧ A.zz = B.zz →
      mat_vec_mul A v = mat_vec_mul B v) ∧
    mat_vec_mul (mat_from_pos p) v = v ∧
    mat_vec_mul (mat_mul (mat_from_pos p) M) v = mat_vec_mul M v := by
  obtain ⟨h1, h2, h3, -⟩ := hM
  refine ⟨?_, ?_, ?_⟩
  · rintro A B ⟨e1, e2, e3, e4, e5, e6, e7, e8, e9⟩
    simp only [mat_vec_mul, e1, e2, e3, e4, e5, e6, e7, e8, e9]
  · obtain ⟨vx, vy, vz⟩ := v
    simp [mat_vec_mul, mat_from_pos, mat4, vec3]
  · simp [mat_vec_mul, mat_mul, mat_from_pos, mat4, vec3, h1, h2, h3]

/-- Witness for C23 at p = (1,2,3), v = (4,5,6) and M the scale matrix of (2,3,4). -/
theorem mat_vec_mul_ignores_w_witness :
    ((mat_from_scale (vec3 2 3 4) : Mat4 ℚ).wx = 0 ∧ (mat_from_scale (vec3 2 3 4) : Mat4 ℚ).wy = 0 ∧
      (mat_from_scale (vec3 2 3 4) : Mat4 ℚ).wz = 0 ∧ (mat_from_scale (vec3 2 3 4) : Mat4 ℚ).ww = 1) ∧
    mat_vec_mul (mat_from_pos (vec3 1 2 3 : Vec3 ℚ)) (vec3 4 5 6) = vec3 4 5 6 ∧
    mat_vec_mul (mat_mul (mat_from_pos (vec3 1 2 3 : Vec3 ℚ)) (mat_from_scale (vec3 2 3 4)))
        (vec3 4 5 6) = mat_vec_mul (mat_from_scale (vec3 2 3 4)) (vec3 4 5 6) :=
  ⟨⟨rfl, rfl, rfl, rfl⟩,
   (mat_vec_mul_ignores_w (vec3 1 2 3 : Vec3 ℚ) (vec3 4 5 6) (mat_from_scale (vec3 2 3 4))
      ⟨rfl, rfl, rfl, rfl⟩).2⟩

end Composition

/-! ### Flat-normal synthesis -/

section FlatNormal

variable {F : Type} [LinearOrderedField F]

lemma set_vert_no_normal_part (f : List F) (str : List Char) (verts : List F) (n_verts : Nat)
    (texs : List F) (n_texs : Nat) (norms : List F) (n_norms : Nat) (hf : f.length = 8)
    (h : after_char str '/' = none ∨
      ∃ s, after_char str '/' = some s ∧ after_char s '/' = none) :
    (set_vert f str verts n_verts texs n_texs norms n_norms).drop 5 = [0, 0, 0] := by
  obtain ⟨a0, a1, a2, a3, a4, a5, a6, a7, rfl⟩ := window8 f hf
  simp only [set_vert]
  rcases h with h | ⟨s, h1, h2⟩
  · rw [h]
    split_ifs <;> simp
  · rw [h1]
    dsimp only
    rw [h2]
    split_ifs <;> simp

/-- C24: flat-normal synthesis is decided by the first vertex's resolved normal alone.  With
f0, f8, f16 the three windows set_vert resolves from the three tokens: when the normal fields
of f0 are all zero, the normal fields of all three vertices of the appended triangle hold the
synthesized face normal, whatever normals the second and third token resolved to; when they
are not all zero, the three windows are appended as resolved, and a token without a normal
part has resolved to a zero normal.  Two faces over the positions (0,0,0), (0,1,0), (0,0,1) and
the normal (0,0,1) show both: the tokens 1, 2//1, 3//1 give the synthesized normal (1,0,0)
three times, the tokens 1//1, 2, 3 give the normals (0,0,1), (0,0,0), (0,0,0).  The two faces
are computed over the rationals, with the identity for the square root, which is exact at the
one value it is applied to, the squared length 1 of the cross product. -/
theorem flat_normal_decided_by_first_vertex (sqrtf : F → F) (junk : Nat → F)
    (arg1 arg2 arg3 : List Char) (st : ObjState F) :
    (∀ f0 f8 f16 : List F,
      f0 = set_vert (fresh8 junk (st.n_faces * 24)) arg1
        st.verts st.n_verts st.texs st.n_texs st.norms st.n_norms →
      f8 = set_vert (fresh8 junk (st.n_faces * 24 + 8)) arg2
        st.verts st.n_verts st.texs st.n_texs st.norms st.n_norms →
      f16 = set_vert (fresh8 junk (st.n_faces * 24 + 16)) arg3
        st.verts st.n_verts st.texs st.n_texs st.norms st.n_norms →
      ∀ n : Vec3 F,
      n = vec_norm sqrtf (vec_cross
        (vec_to (vec3 (f0.getD 0 0) (f0.getD 1 0) (f0.getD 2 0))
          (vec3 (f8.getD 0 0) (f8.getD 1 0) (f8.getD 2 0)))
        (vec_to (vec3 (f0.getD 0 0) (f0.getD 1 0) (f0.getD 2 0))
          (vec3 (f16.getD 0 0) (f16.getD 1 0) (f16.getD 2 0)))) →
      (f0.getD 5 0 = 0 ∧ f0.getD 6 0 = 0 ∧ f0.getD 7 0 = 0 →
        (obj_face sqrtf junk arg1 arg2 arg3 st).faces = st.faces ++
          [f0.getD 0 0, f0.getD 1 0, f0.getD 2 0, f0.getD 3 0, f0.getD 4 0, n.x, n.y, n.z,
           f8.getD 0 0, f8.getD 1 0, f8.getD 2 0, f8.getD 3 0, f8.getD 4 0, n.x, n.y, n.z,
           f16.getD 0 0, f16.getD 1 0, f16.getD 2 0, f16.getD 3 0, f16.getD 4 0,
           n.x, n.y, n.z]) ∧
      (¬ (f0.getD 5 0 = 0 ∧ f0.getD 6 0 = 0 ∧ f0.getD 7 0 = 0) →
        (obj_face sqrtf junk arg1 arg2 arg3 st).faces = st.faces ++ (f0 ++ f8 ++ f16))) ∧
    (∀ (f : List F) (str : List Char), f.length = 8 →
      (after_char str '/' = none ∨
        ∃ s, after_char str '/' = some s ∧ after_char s '/' = none) →
      (set_vert f str st.verts st.n_verts st.texs st.n_texs st.norms st.n_norms).drop 5 =
        [0, 0, 0]) ∧
    (obj_face (fun x : ℚ => x) (fun _ => 7) ['1'] ['2', '/', '/', '1'] ['3', '/', '/', '1']
        ⟨[0, 0, 0, 0, 1, 0, 0, 0, 1], 3, [], 0, [0, 0, 1], 1, [], 0⟩).faces =
      [0, 0, 0, 0, 0, 1, 0, 0, 0, 1, 0, 0, 0, 1, 0, 0, 0, 0, 1, 0, 0, 1, 0, 0] ∧
    (obj_face (fun x : ℚ => x) (fun _ => 7) ['1', '/', '/', '1'] ['2'] ['3']
        ⟨[0, 0, 0, 0, 1, 0, 0, 0, 1], 3, [], 0, [0, 0, 1], 1, [], 0⟩).faces =
      [0, 0, 0, 0, 0, 0, 0, 1, 0, 1, 0, 0, 0, 0, 0, 0, 0, 0, 1, 0, 0, 0, 0, 0] := by
  have w1 : set_vert (fresh8 (fun _ => (7 : ℚ)) 0) ['1']
      [0, 0, 0, 0, 1, 0, 0, 0, 1] 3 [] 0 [0, 0, 1] 1 = [0, 0, 0, 0, 0, 0, 0, 0] := by decide
  have w2 : set_vert (fresh8 (fun _ => (7 : ℚ)) 8) ['2', '/', '/', '1']
      [0, 0, 0, 0, 1, 0, 0, 0, 1] 3 [] 0 [0, 0, 1] 1 = [0, 1, 0, 0, 0, 0, 0, 1] := by decide
  have w3 : set_vert (fresh8 (fun _ => (7 : ℚ)) 16) ['3', '/', '/', '1']
      [0, 0, 0, 0, 1, 0, 0, 0, 1] 3 [] 0 [0, 0, 1] 1 = [0, 0, 1, 0, 0, 0, 0, 1] := by decide
  have ex1 : (obj_face (fun x : ℚ => x) (fun _ => 7) ['1'] ['2', '/', '/', '1']
        ['3', '/', '/', '1']
        ⟨[0, 0, 0, 0, 1, 0, 0, 0, 1], 3, [], 0, [0, 0, 1], 1, [], 0⟩).faces =
      [0, 0, 0, 0, 0, 1, 0, 0, 0, 1, 0, 0, 0, 1, 0, 0, 0, 0, 1, 0, 0, 1, 0, 0] := by
    simp only [obj_face, Nat.zero_mul, Nat.zero_add, w1, w2, w3]
    norm_num [vec_norm, vec_len, vec_len_sq, vec_cross, vec_to, vec_scale, vec3]
  refine ⟨?_, ?_, ex1, by decide⟩
  · intro f0 f8 f16 h0 h8 h16 n hn
    have l0 : f0.length = 8 := by rw [h0, set_vert_length]; rfl
    have l8 : f8.length = 8 := by rw [h8, set_vert_length]; rfl
    have l16 : f16.length = 8 := by rw [h16, set_vert_length]; rfl
    obtain ⟨a0, a1, a2, a3, a4, a5, a6, a7, e0⟩ := window8 f0 l0
    obtain ⟨b0, b1, b2, b3, b4, b5, b6, b7, e8⟩ := window8 f8 l8
    obtain ⟨c0, c1, c2, c3, c4, c5, c6, c7, e16⟩ := window8 f16 l16
    rw [e0] at h0
    rw [e8] at h8
    rw [e16] at h16
    rw [e0, e8, e16] at hn
    simp only [List.getD_cons_zero, List.getD_cons_succ] at hn
    constructor
    · intro hz
      rw [e0] at hz
      simp only [List.getD_cons_zero, List.getD_cons_succ] at hz
      obtain ⟨z5, z6, z7⟩ := hz
      simp only [obj_face, ← h0, ← h8, ← h16, List.getD_cons_zero, List.getD_cons_succ, z5, z6,
        z7, and_self, if_true, ← hn, e0, e8, e16]
      simp
    · intro hz
      rw [e0] at hz
      simp only [List.getD_cons_zero, List.getD_cons_succ] at hz
      simp only [obj_face, ← h0, ← h8, ← h16, List.getD_cons_zero, List.getD_cons_succ, hz,
        if_false, e0, e8, e16]
  · intro f str hf h
    exact set_vert_no_normal_part f str _ _ _ _ _ _ hf h

end FlatNormal

/-! ### Yaw convention of the walking camera -/

section YawConvention

/-- C25: Walking movement and the Walking view matrix use the same yaw convention.  For every
camera whose yaw is 0 or has |yaw| >= FLT_EPSILON and every local vector v, with d the
displacement of the position produced by translate_local_camera cam v, the yaw rotation of the
view, quat_to_mat (quat_from_rot (0,0,-yaw)), maps d back to v; hence
d.x^2 + d.y^2 = v.x^2 + v.y^2, d.z = v.z, and pitch and yaw are unchanged by the call. -/
theorem walking_move_matches_view (cam : Camera ℝ) (v : Vec3 ℝ)
    (hy : cam.yaw = 0 ∨ FLT_EPSILON ≤ |cam.yaw|) :
    mat_vec_mul
        (quat_to_mat (quat_from_rot Real.sqrt Real.cos Real.sin (vec3 0 0 (-cam.yaw))))
        (vec_to cam.pos (translate_local_camera Real.cos Real.sin cam v).pos) = v ∧
    (vec_to cam.pos (translate_local_camera Real.cos Real.sin cam v).pos).x ^ 2 +
      (vec_to cam.pos (translate_local_camera Real.cos Real.sin cam v).pos).y ^ 2 =
        v.x ^ 2 + v.y ^ 2 ∧
    (vec_to cam.pos (translate_local_camera Real.cos Real.sin cam v).pos).z = v.z ∧
    (translate_local_camera Real.cos Real.sin cam v).pitch = cam.pitch ∧
    (translate_local_camera Real.cos Real.sin cam v).yaw = cam.yaw := by
  obtain ⟨⟨px, py, pz⟩, pitch, yaw⟩ := cam
  obtain ⟨vx, vy, vz⟩ := v
  simp only at hy
  have hy2 : -yaw = 0 ∨ FLT_EPSILON ≤ |(-yaw)| := by
    rcases hy with h | h
    · exact Or.inl (by rw [h, neg_zero])
    · exact Or.inr (by rw [abs_neg]; exact h)
  have hcs := Real.cos_sq_add_sin_sq yaw
  rw [quat_from_rot_axis_z _ hy2, quat_to_mat_axis_z]
  simp only [translate_local_camera, vec_to, vec3, mat_vec_mul, mat_rot_z, mat4,
    Real.cos_neg, Real.sin_neg, Vec3.mk.injEq]
  refine ⟨⟨?_, ?_, ?_⟩, ?_, ?_, trivial, trivial⟩
  · linear_combination vx * hcs
  · linear_combination vy * hcs
  · ring
  · linear_combination (vx ^ 2 + vy ^ 2) * hcs
  · ring

/-- Witness for C25 at the camera main starts with, turned to yaw = 2, and the local vector
(1,2,3). -/
theorem walking_move_matches_view_witness :
    ((2 : ℝ) = 0 ∨ FLT_EPSILON ≤ |(2 : ℝ)|) ∧
    mat_vec_mul
        (quat_to_mat (quat_from_rot Real.sqrt Real.cos Real.sin (vec3 0 0 (-2))))
        (vec_to (vec3 7 5 (17 / 10))
          (translate_local_camera Real.cos Real.sin ⟨vec3 7 5 (17 / 10), PI / 2, 2⟩
            (vec3 1 2 3)).pos) = vec3 1 2 3 := by
  have h : (2 : ℝ) = 0 ∨ FLT_EPSILON ≤ |(2 : ℝ)| := Or.inr (by norm_num [FLT_EPSILON])
  exact ⟨h, (walking_move_matches_view ⟨vec3 7 5 (17 / 10), PI / 2, 2⟩ (vec3 1 2 3) h).1⟩

end YawConvention

/-! ### OBJ loader: index text beyond the range of int -/

section IndexOverflow

variable {F : Type} [LinearOrderedField F]

/-- C15 fails on the code: the index text is read by atoi, whose result is a 32-bit int.  For
every token whose int value atoi(token) lies outside 1..n_verts (n_verts below 2^63), set_vert
does write (0,0,0) into the position fields without using the position list, and the loader
reports success for every readable content.  But the token 4294967297 denotes an index beyond
every declared count below it, atoi yields 1 for it, and with one declared position (1,2,3)
set_vert copies that position instead of zeros; in a file with the positions (1,0,0), (0,1,0),
(0,0,1) the face `f 4294967297 2 3` starts with the position (1,0,0). -/
theorem set_vert_index_overflow_reads_position (sqrtf : F → F) (junk : Nat → F) :
    (∀ (f : List F) (str : List Char) (verts : List F) (n_verts : Nat) (texs : List F)
        (n_texs : Nat) (norms : List F) (n_norms : Nat),
      f.length = 8 → n_verts < 2 ^ 63 → (atoi str < 1 ∨ (n_verts : Int) < atoi str) →
      (set_vert f str verts n_verts texs n_texs norms n_norms).take 3 = [0, 0, 0] ∧
      (∀ verts2 : List F,
        set_vert f str verts2 n_verts texs n_texs norms n_norms =
          set_vert f str verts n_verts texs n_texs norms n_norms)) ∧
    (∀ (atof : List Char → F) (content : List Char),
      (read_obj_file sqrtf atof junk (some content)).1 = true) ∧
    (decimal_value ['4', '2', '9', '4', '9', '6', '7', '2', '9', '7'] = 4294967297 ∧
      atoi ['4', '2', '9', '4', '9', '6', '7', '2', '9', '7'] = 1) ∧
    set_vert [9, 9, 9, 9, 9, 9, 9, 9] ['4', '2', '9', '4', '9', '6', '7', '2', '9', '7']
        [1, 2, 3] 1 [] 0 ([] : List ℚ) 0 = [1, 2, 3, 0, 0, 0, 0, 0] ∧
    ((read_obj_file sqrtf atof_int junk
        (some (obj_line ['v'] ['1'] ['0'] ['0'] ++ (obj_line ['v'] ['0'] ['1'] ['0'] ++
          (obj_line ['v'] ['0'] ['0'] ['1'] ++
            obj_line ['f'] ['4', '2', '9', '4', '9', '6', '7', '2', '9', '7'] ['2']
              ['3']))))).2.1.take 3 = [1, 0, 0] ∧
     (read_obj_file sqrtf atof_int junk
        (some (obj_line ['v'] ['1'] ['0'] ['0'] ++ (obj_line ['v'] ['0'] ['1'] ['0'] ++
          (obj_line ['v'] ['0'] ['0'] ['1'] ++
            obj_line ['f'] ['4', '2', '9', '4', '9', '6', '7', '2', '9', '7'] ['2']
              ['3']))))).2.2 = 1) := by
  refine ⟨?_, fun _ _ => rfl, ⟨by decide, by decide⟩, by decide, ?_⟩
  · intro f str verts n_verts texs n_texs norms n_norms hf hn hout
    exact set_vert_position_zero f str verts n_verts texs n_texs norms n_norms hf hn hout
  · have tv : is_token ['v'] := ⟨by simp, by decide⟩
    have tf : is_token ['f'] := ⟨by simp, by decide⟩
    have t0 : is_token ['0'] := is_token_digit '0' (by decide)
    have t1 : is_token ['1'] := is_token_digit '1' (by decide)
    have t2 : is_token ['2'] := is_token_digit '2' (by decide)
    have t3 : is_token ['3'] := is_token_digit '3' (by decide)
    have tb : is_token ['4', '2', '9', '4', '9', '6', '7', '2', '9', '7'] :=
      ⟨by simp, by decide⟩
    have hv : ∀ a b c rest : List Char, (obj_line ['v'] a b c ++ rest).head? ≠ some '\n' := by
      intro a b c rest
      rw [obj_line_head _ _ _ _ _ (by simp)]
      decide
    have hv2 : ∀ a b c rest : List Char, (obj_line ['v'] a b c ++ rest).head? ≠ some '#' := by
      intro a b c rest
      rw [obj_line_head _ _ _ _ _ (by simp)]
      decide
    have hfh : ∀ a b c : List Char, (obj_line ['f'] a b c).head? ≠ some '\n' := by
      intro a b c
      have h := obj_line_head ['f'] a b c [] (by simp)
      rw [List.append_nil] at h
      rw [h]
      decide
    have hfh2 : ∀ a b c : List Char, (obj_line ['f'] a b c ++ []).head? ≠ some '#' := by
      intro a b c
      rw [obj_line_head _ _ _ _ _ (by simp)]
      decide
    have e4 : ∀ a b c : List Char, obj_line ['f'] a b c = obj_line ['f'] a b c ++ [] :=
      fun a b c => (List.append_nil _).symm
    have run : obj_loop sqrtf atof_int junk
        (obj_line ['v'] ['1'] ['0'] ['0'] ++ (obj_line ['v'] ['0'] ['1'] ['0'] ++
          (obj_line ['v'] ['0'] ['0'] ['1'] ++
            obj_line ['f'] ['4', '2', '9', '4', '9', '6', '7', '2', '9', '7'] ['2'] ['3'])))
        ⟨[], 0, [], 0, [], 0, [], 0⟩ =
        obj_face sqrtf junk ['4', '2', '9', '4', '9', '6', '7', '2', '9', '7'] ['2'] ['3']
          ⟨[atof_int ['1'], atof_int ['0'], atof_int ['0'],
            atof_int ['0'], atof_int ['1'], atof_int ['0'],
            atof_int ['0'], atof_int ['0'], atof_int ['1']], 3, [], 0, [], 0, [], 0⟩ := by
      rw [obj_loop_obj_line sqrtf atof_int junk _ _ _ _ _ _ tv t1 t0 t0 (hv _ _ _ _),
        obj_record_v sqrtf atof_int junk _ ['1'] ['0'] ['0'] _ (hv2 _ _ _ _)
          (sscanf4_obj_line _ _ _ _ _ tv (by simp) t1 (by simp) t0 (by simp) t0 (by simp)),
        obj_loop_obj_line sqrtf atof_int junk _ _ _ _ _ _ tv t0 t1 t0 (hv _ _ _ _),
        obj_record_v sqrtf atof_int junk _ ['0'] ['1'] ['0'] _ (hv2 _ _ _ _)
          (sscanf4_obj_line _ _ _ _ _ tv (by simp) t0 (by simp) t1 (by simp) t0 (by simp))]
      nth_rewrite 1 [e4]
      rw [obj_loop_obj_line sqrtf atof_int junk _ _ _ _ _ _ tv t0 t0 t1
          (by rw [← e4]; exact hfh _ _ _),
        obj_record_v sqrtf atof_int junk _ ['0'] ['0'] ['1'] _ (hv2 _ _ _ _)
          (sscanf4_obj_line _ _ _ _ _ tv (by simp) t0 (by simp) t0 (by simp) t1 (by simp)),
        obj_loop_obj_line sqrtf atof_int junk _ _ _ _ _ _ tf tb t2 t3 (by simp),
        obj_record_face sqrtf atof_int junk _ _ ['2'] ['3'] _ (hfh2 _ _ _)
          (sscanf4_obj_line _ _ _ _ _ tf (by simp) tb (by simp) t2 (by simp) t3 (by simp)),
        obj_loop_nil]
      rfl
    have ab : to_size_t (atoi ['4', '2', '9', '4', '9', '6', '7', '2', '9', '7'] - 1) = 0 := by
      decide
    have nb : after_char ['4', '2', '9', '4', '9', '6', '7', '2', '9', '7'] '/' = none := by
      decide
    have h0 : atoi ['0'] = 0 := by decide
    have h1 : atoi ['1'] = 1 := by decide
    have w0 : set_vert (fresh8 junk 0) ['4', '2', '9', '4', '9', '6', '7', '2', '9', '7']
        [atof_int ['1'], atof_int ['0'], atof_int ['0'],
          atof_int ['0'], atof_int ['1'], atof_int ['0'],
          atof_int ['0'], atof_int ['0'], atof_int ['1']] 3 [] 0 [] 0 =
        [(1 : F), 0, 0, 0, 0, 0, 0, 0] := by
      simp [set_vert, fresh8, ab, nb, atof_int, h0, h1]
    constructor
    · simp only [read_obj_file, run, obj_face, Nat.zero_mul, w0]
      split_ifs <;> simp
    · simp only [read_obj_file, run, obj_face_counts]

end IndexOverflow

end Linalg
